import Mathlib

/-!
The ioTube witness service: the transfer validator on IoTeX.

A shallow embedding of `witness-service/relayer/transfervalidatoroniotex.go`
(`NewTransferValidatorOnIoTeX`, `refresh`, `isActiveWitness`, `Check`, `Submit`)
and theorems about it.

Conventions of the embedding.

* The chain client is a record of response functions (`Chain`); every remote
  call made by the code is appended to an explicit trace of `Event`s, so that
  "no account fetch" or "dispatches" are statements about the trace.
* A remote read answers with a call error, or with raw data whose decoding
  either fails or yields a value: `Except Error (Except Error α)`.
* Go `error` values are `Option Error` (`none` is `nil`).
* `*big.Int` is `Int`; `uint64` is `Nat` with an explicit `% 2 ^ 64` where the
  code does arithmetic on it.  `int` counters that count elements of in-memory
  slices and maps stay `Nat`: a slice of 8-byte pointers has fewer than
  `2 ^ 61` elements and a slice of 20-byte addresses fewer than `2 ^ 60`, so
  the products `* 3` and `* 2` of `Submit` cannot leave the `int` range.
* Pointers (`*Transfer`, `*Witness`, `*AccountMeta`) are taken to be non-nil,
  the mutex and the `log` output are not modelled.
-/

namespace Relayer

/-! ## Data model -/

/-- A `common.Address`: 20 bytes, read as a big-endian number. -/
abbrev Address := Fin (2 ^ 160)

/-- A `common.Hash` (and `hash.Hash256`): 32 bytes, read as a big-endian number. -/
abbrev Hash := Fin (2 ^ 256)

/-- The 20 bytes of an address, `common.Address.Bytes`. -/
def Address.Bytes (a : Address) : List Nat :=
  (List.range 20).map (fun i => a.val / 256 ^ (19 - i) % 256)

/-- Go `error` values met in this file. `errInsufficientWitnesses` is the named
error of the relayer package; `invalidAddress` is what `address.FromBytes`
returns on a byte string whose length is not 20; `remote` stands for any error
produced by the chain client or by ABI decoding; `wrapf` is an error wrapped by
`errors.Wrapf` with the given format string. -/
inductive Error where
  | errInsufficientWitnesses
  | invalidAddress
  | remote (msg : String)
  | wrapf (cause : Error) (format : String)
  deriving DecidableEq, Repr

/-- The function `errors.Wrapf` of `github.com/pkg/errors`: wrapping `nil`
gives `nil`. -/
def Wrapf (err : Option Error) (format : String) : Option Error :=
  match err with
  | none => none
  | some e => some (Error.wrapf e format)

/-- The function `address.FromBytes` of `iotex-address`: it accepts exactly
the byte strings of length 20 and keeps them as payload. -/
def FromBytes (bytes : List Nat) : Except Error (List Nat) :=
  if bytes.length ≠ 20 then Except.error Error.invalidAddress else Except.ok bytes

/-- Modelled from the spec: the `Transfer` type is declared outside
`transfervalidatoroniotex.go`; these are the fields the validator reads
(identifier, cashier, token, index, sender, recipient, amount, nonce). -/
structure Transfer where
  id : List Nat
  cashier : Address
  token : Address
  index : Nat
  sender : Address
  recipient : Address
  amount : Int
  nonce : Nat
  deriving DecidableEq, Repr

/-- Modelled from the spec: the `Witness` type is declared outside
`transfervalidatoroniotex.go`: a signer address and its raw signature bytes. -/
structure Witness where
  addr : Address
  signature : List Nat
  deriving DecidableEq, Repr

/-- Modelled from the spec: the `StatusOnChainType` enumeration is declared
outside `transfervalidatoroniotex.go`; these are the five values `Check`
returns. -/
inductive StatusOnChainType where
  | StatusOnChainUnknown
  | StatusOnChainSettled
  | StatusOnChainRejected
  | StatusOnChainNonceOverwritten
  | StatusOnChainNotConfirmed
  deriving DecidableEq, Repr

/-- The fields of `iotextypes.AccountMeta` that the validator reads. -/
structure AccountMeta where
  Nonce : Nat
  Balance : String
  deriving DecidableEq, Repr

/-- The request `iotexapi.GetReceiptByActionRequest`: its only field. -/
structure GetReceiptByActionRequest where
  ActionHash : String
  deriving DecidableEq, Repr

/-- The response `iotexapi.GetReceiptByActionResponse`, reduced to the status
of the receipt it carries. -/
structure GetReceiptByActionResponse where
  status : Nat
  deriving DecidableEq, Repr

/-- The decoded result of `getActiveItems`: the struct `ret` of `refresh`. -/
structure ActiveItems where
  Count : Int
  Items : List Address
  deriving DecidableEq, Repr

/-- The contract call built by `Submit`: method, arguments, and the gas price,
gas limit and nonce set on it. -/
structure ExecuteCall where
  method : String
  cashier : Address
  token : Address
  index : Int
  sender : Address
  recipient : Address
  amount : Int
  signatures : List Nat
  gasPrice : Int
  gasLimit : Nat
  nonce : Nat
  deriving DecidableEq, Repr

/-- The chain client as seen by the validator: one response per request. -/
structure Chain where
  /-- `witnessListContract.Read("count")`, then `Unmarshal`. -/
  count : Except Error (Except Error Int)
  /-- `witnessListContract.Read("getActiveItems", offset, limit)`, then `Unpack`. -/
  getActiveItems : Int → Nat → Except Error (Except Error ActiveItems)
  /-- `validatorContract.Read("settles", id)`, then `Unpack`. -/
  settles : List Nat → Except Error (Except Error Int)
  /-- `client.API().GetAccount` for the given address. -/
  GetAccount : Address → Except Error AccountMeta
  /-- `client.API().GetReceiptByAction`; `none` is a nil response. -/
  GetReceiptByAction : GetReceiptByActionRequest → Except Error (Option GetReceiptByActionResponse)
  /-- `validatorContract.Execute(...).Call`. -/
  Execute : ExecuteCall → Except Error Hash

/-- The remote calls and alerts a run performs, in order. -/
inductive Event where
  | readCount
  | readActiveItems (offset : Int) (limit : Nat)
  | readSettles (id : List Nat)
  | getAccount (addr : Address)
  | getReceiptByAction (req : GetReceiptByActionRequest)
  | alert (balance : Int) (addr : Address)
  | execute (call : ExecuteCall)
  deriving DecidableEq, Repr

/-- How a Go function call ends: it returns, it panics, or the model ran out
of fuel (shown below never to happen). -/
inductive Outcome (α : Type) where
  | returned (a : α)
  | panicked
  | diverged
  deriving DecidableEq, Repr

/-! ## The witness map, a Go `map[string]bool`

The key of an address is `witness.Hex()`, which is injective on addresses, so
the map is keyed by the address itself. -/

/-- A Go `map[string]bool` as an association list without repeated keys. -/
abbrev WitnessMap := List (Address × Bool)

/-- The lookup `val, ok := m[k]`: `none` when `ok` is false. -/
def mapGet : WitnessMap → Address → Option Bool
  | [], _ => none
  | (k', v) :: rest, k => if k' = k then some v else mapGet rest k

/-- The assignment `m[k] = v`. -/
def mapSet : WitnessMap → Address → Bool → WitnessMap
  | [], k, v => [(k, v)]
  | (k', v') :: rest, k, v =>
    if k' = k then (k, v) :: rest else (k', v') :: mapSet rest k v

/-- The number of entries `len(m)`. -/
def mapLen (m : WitnessMap) : Nat := m.length

/-- The state of a `transferValidatorOnIoTeX` (keys, client and ABIs left out);
`witnessListContract` is the address the witness-list contract handle is bound to. -/
structure transferValidatorOnIoTeX where
  gasLimit : Nat
  gasPrice : Int
  relayerAddr : Address
  validatorContractAddr : Address
  witnessListContract : Address
  witnesses : WitnessMap
  deriving DecidableEq, Repr

/-! ## The constructor -/

/-- What `NewTransferValidatorOnIoTeX` gets from its surroundings: the outcome
of parsing the two ABI constants of the `contract` package (`none` is
success), the answer to the read of `witnessList` (a call error, or raw data
whose unpacking fails or yields an address), and the address derived from the
private key by `crypto.PubkeyToAddress`. -/
structure Construction where
  validatorABI : Option Error
  witnessList : Except Error (Except Error Address)
  witnessContractABI : Option Error
  relayer : Address

/-- The constant `unit.Qev` of `iotex-core`. -/
def Qev : Int := 1000000000000

/-- The function `NewTransferValidatorOnIoTeX`: the validator (`none` is nil)
and the error. The statement `validatorABI.Unpack(...)` of line 70 discards
the result of the unpacking, which on failure leaves `witnessContractAddr` at
its zero value, and the condition tests `err`, still the nil error of the read
of line 65. -/
def NewTransferValidatorOnIoTeX (env : Construction) (validatorContractAddr : Address) :
    Option transferValidatorOnIoTeX × Option Error :=
  match FromBytes (Address.Bytes validatorContractAddr) with
  | Except.error err => (none, some err)
  | Except.ok _ =>
    match env.validatorABI with
    | some err => (none, some err)
    | none =>
      match env.witnessList with
      | Except.error err => (none, some err)
      | Except.ok data =>
        let err : Option Error := none
        let witnessContractAddr : Address :=
          match data with
          | Except.ok unpacked => unpacked
          | Except.error _ => 0
        match err with
        | some err => (none, some err)
        | none =>
          match FromBytes (Address.Bytes witnessContractAddr) with
          | Except.error err => (none, some err)
          | Except.ok _ =>
            match env.witnessContractABI with
            | some err => (none, some err)
            | none =>
              match FromBytes (Address.Bytes env.relayer) with
              | Except.error err => (none, some err)
              | Except.ok _ =>
                (some
                  { gasLimit := 2000000
                    gasPrice := Qev
                    relayerAddr := env.relayer
                    validatorContractAddr := validatorContractAddr
                    witnessListContract := witnessContractAddr
                    witnesses := [] },
                  none)

/-! ## refresh -/

/-- The method `big.Int.Int64`: the low 64 bits, read as a signed integer. -/
def Int64 (x : Int) : Int := (x + 2 ^ 63) % 2 ^ 64 - 2 ^ 63

/-- The slice expression `items[:n]` on a slice whose capacity is its length
(as built by the ABI decoder): `none` is the out-of-range panic. -/
def sliceTo (items : List Address) (n : Int) : Option (List Address) :=
  if 0 ≤ n ∧ n ≤ (items.length : Int) then some (items.take n.toNat) else none

/-- How the pagination loop of `refresh` ends. -/
inductive Pages where
  | done (witnesses : List Address) (trace : List Event)
  | failed (err : Error) (trace : List Event)
  | panicked (trace : List Event)
  | outOfFuel (trace : List Event)
  deriving DecidableEq, Repr

/-- The loop `for offset.Cmp(count) < 0 { ... }` of `refresh`, with `limit = 10`. -/
def refreshPages (c : Chain) (count : Int) :
    Nat → Int → List Address → List Event → Pages
  | 0, _, _, trace => Pages.outOfFuel trace
  | fuel + 1, offset, witnesses, trace =>
    if offset < count then
      let trace := trace ++ [Event.readActiveItems offset 10]
      match c.getActiveItems offset 10 with
      | Except.error err => Pages.failed err trace
      | Except.ok data =>
        match data with
        | Except.error err => Pages.failed err trace
        | Except.ok ret =>
          match sliceTo ret.Items (Int64 ret.Count) with
          | none => Pages.panicked trace
          | some items => refreshPages c count fuel (offset + 10) (witnesses ++ items) trace
    else Pages.done witnesses trace

/-- The loop `for _, w := range witnesses { ... }` of `refresh`, filling
`activeWitnesses`. -/
def fillActive : List Address → WitnessMap → Except Error WitnessMap
  | [], activeWitnesses => Except.ok activeWitnesses
  | w :: rest, activeWitnesses =>
    match FromBytes (Address.Bytes w) with
    | Except.error err => Except.error err
    | Except.ok _ => fillActive rest (mapSet activeWitnesses w true)

/-- A run of `refresh`: the state afterwards, how the call ended, the calls made. -/
structure RefreshRun where
  tv : transferValidatorOnIoTeX
  out : Outcome (Option Error)
  trace : List Event
  deriving DecidableEq, Repr

/-- The method `refresh`. The loop gets `count + 1` units of fuel, more than
the number of pages it can read. -/
def refresh (c : Chain) (tv : transferValidatorOnIoTeX) : RefreshRun :=
  match c.count with
  | Except.error err => ⟨tv, Outcome.returned (some err), [Event.readCount]⟩
  | Except.ok countData =>
    match countData with
    | Except.error err => ⟨tv, Outcome.returned (some err), [Event.readCount]⟩
    | Except.ok count =>
      match refreshPages c count (count.toNat + 1) 0 [] [Event.readCount] with
      | Pages.failed err trace => ⟨tv, Outcome.returned (some err), trace⟩
      | Pages.panicked trace => ⟨tv, Outcome.panicked, trace⟩
      | Pages.outOfFuel trace => ⟨tv, Outcome.diverged, trace⟩
      | Pages.done witnesses trace =>
        match fillActive witnesses [] with
        | Except.error err => ⟨tv, Outcome.returned (some err), trace⟩
        | Except.ok activeWitnesses =>
          ⟨{ tv with witnesses := activeWitnesses }, Outcome.returned none, trace⟩

/-- The method `isActiveWitness`: `ok && val`. -/
def isActiveWitness (tv : transferValidatorOnIoTeX) (witness : Address) : Bool :=
  match mapGet tv.witnesses witness with
  | some val => val
  | none => false

/-! ## Check -/

/-- A run of `Check`: the returned pair and the calls made. -/
structure CheckRun where
  status : StatusOnChainType
  err : Option Error
  trace : List Event
  deriving DecidableEq, Repr

/-- The method `Check`. The account is fetched for `tv.relayerAddr`, the
receipt request is the empty `GetReceiptByActionRequest{}`. -/
def Check (c : Chain) (tv : transferValidatorOnIoTeX) (transfer : Transfer) : CheckRun :=
  let trace := [Event.getAccount tv.relayerAddr]
  match c.GetAccount tv.relayerAddr with
  | Except.error err => ⟨StatusOnChainType.StatusOnChainUnknown, some err, trace⟩
  | Except.ok accountMeta =>
    let trace := trace ++ [Event.readSettles transfer.id]
    match c.settles transfer.id with
    | Except.error err => ⟨StatusOnChainType.StatusOnChainUnknown, some err, trace⟩
    | Except.ok settleHeightData =>
      match settleHeightData with
      | Except.error err => ⟨StatusOnChainType.StatusOnChainUnknown, some err, trace⟩
      | Except.ok settleHeight =>
        if settleHeight > 0 then
          ⟨StatusOnChainType.StatusOnChainSettled, none, trace⟩
        else
          let request : GetReceiptByActionRequest := { ActionHash := "" }
          let trace := trace ++ [Event.getReceiptByAction request]
          match c.GetReceiptByAction request with
          | Except.error err => ⟨StatusOnChainType.StatusOnChainUnknown, some err, trace⟩
          | Except.ok response =>
            match response with
            | some _ => ⟨StatusOnChainType.StatusOnChainRejected, none, trace⟩
            | none =>
              if transfer.nonce ≤ accountMeta.Nonce then
                ⟨StatusOnChainType.StatusOnChainNonceOverwritten, none, trace⟩
              else
                ⟨StatusOnChainType.StatusOnChainNotConfirmed, none, trace⟩

/-! ## Submit -/

/-- The digits of a base-10 number: every character must be a decimal digit. -/
def scanDigits : List Char → Nat → Option Nat
  | [], acc => some acc
  | ch :: rest, acc =>
    if '0' ≤ ch ∧ ch ≤ '9' then scanDigits rest (acc * 10 + (ch.toNat - 48)) else none

/-- The call `big.NewInt(0).SetString(s, 10)`: an optional sign, then at least
one decimal digit, then the end of the string; `none` when `ok` is false. -/
def SetString (s : String) : Option Int :=
  match s.data with
  | [] => none
  | '-' :: digits =>
    if digits = [] then none else (scanDigits digits 0).map (fun n => -(n : Int))
  | '+' :: digits =>
    if digits = [] then none else (scanDigits digits 0).map (fun n => (n : Int))
  | digits => (scanDigits digits 0).map (fun n => (n : Int))

/-- The loop `for _, witness := range witnesses { ... }` of `Submit`: the
signature blob and `numOfValidSignatures`, or the error of the early return. -/
def collectSignatures (tv : transferValidatorOnIoTeX) :
    List Witness → List Nat → Nat → Except Error (List Nat × Nat)
  | [], signatures, numOfValidSignatures => Except.ok (signatures, numOfValidSignatures)
  | witness :: rest, signatures, numOfValidSignatures =>
    if !isActiveWitness tv witness.addr then
      match FromBytes (Address.Bytes witness.addr) with
      | Except.error err => Except.error err
      | Except.ok _ => collectSignatures tv rest signatures numOfValidSignatures
    else
      collectSignatures tv rest (signatures ++ witness.signature) (numOfValidSignatures + 1)

/-- A run of `Submit`: the state afterwards, the returned triple (or a panic)
and the calls made. -/
structure SubmitRun where
  tv : transferValidatorOnIoTeX
  out : Outcome (Hash × Nat × Option Error)
  trace : List Event
  deriving DecidableEq, Repr

/-- The contract call of `Submit`, lines 228 to 240. -/
def submitCall (tv : transferValidatorOnIoTeX) (transfer : Transfer)
    (signatures : List Nat) (accountMeta : AccountMeta) : ExecuteCall :=
  { method := "submit"
    cashier := transfer.cashier
    token := transfer.token
    index := (transfer.index : Int)
    sender := transfer.sender
    recipient := transfer.recipient
    amount := transfer.amount
    signatures := signatures
    gasPrice := tv.gasPrice
    gasLimit := tv.gasLimit
    nonce := (accountMeta.Nonce + 1) % 2 ^ 64 }

/-- The part of `Submit` after the quorum check, lines 216 to 245. -/
def submitDispatch (c : Chain) (tv : transferValidatorOnIoTeX) (transfer : Transfer)
    (signatures : List Nat) (trace : List Event) : SubmitRun :=
  let trace := trace ++ [Event.getAccount tv.relayerAddr]
  match c.GetAccount tv.relayerAddr with
  | Except.error err =>
    ⟨tv, Outcome.returned (0, 0, Wrapf (some err) "failed to get account of %s"), trace⟩
  | Except.ok accountMeta =>
    let err : Option Error := none
    match SetString accountMeta.Balance with
    | none =>
      ⟨tv, Outcome.returned
        (0, 0, Wrapf err "failed to convert balance %s of account %s"), trace⟩
    | some balance =>
      let trace :=
        if balance < tv.gasPrice * (tv.gasLimit : Int) then
          trace ++ [Event.alert balance tv.relayerAddr]
        else trace
      let call := submitCall tv transfer signatures accountMeta
      let trace := trace ++ [Event.execute call]
      match c.Execute call with
      | Except.error err => ⟨tv, Outcome.returned (0, 0, some err), trace⟩
      | Except.ok actionHash =>
        ⟨tv, Outcome.returned (actionHash, (accountMeta.Nonce + 1) % 2 ^ 64, none), trace⟩

/-- The method `Submit`. -/
def Submit (c : Chain) (tv : transferValidatorOnIoTeX) (transfer : Transfer)
    (witnesses : List Witness) : SubmitRun :=
  let r := refresh c tv
  match r.out with
  | Outcome.panicked => ⟨r.tv, Outcome.panicked, r.trace⟩
  | Outcome.diverged => ⟨r.tv, Outcome.diverged, r.trace⟩
  | Outcome.returned (some err) => ⟨r.tv, Outcome.returned (0, 0, some err), r.trace⟩
  | Outcome.returned none =>
    match collectSignatures r.tv witnesses [] 0 with
    | Except.error err => ⟨r.tv, Outcome.returned (0, 0, some err), r.trace⟩
    | Except.ok (signatures, numOfValidSignatures) =>
      if numOfValidSignatures * 3 ≤ mapLen r.tv.witnesses * 2 then
        ⟨r.tv, Outcome.returned (0, 0, some Error.errInsufficientWitnesses), r.trace⟩
      else
        submitDispatch c r.tv transfer signatures r.trace

/-! ## Vocabulary of the statements -/

/-- An account fetch in a trace. -/
def Event.isGetAccount : Event → Bool
  | Event.getAccount _ => true
  | _ => false

/-- A dispatched transaction (an `Execute` call) in a trace. -/
def Event.isExecute : Event → Bool
  | Event.execute _ => true
  | _ => false

/-- The calls made by the pagination loop. -/
def Pages.trace : Pages → List Event
  | Pages.done _ trace => trace
  | Pages.failed _ trace => trace
  | Pages.panicked trace => trace
  | Pages.outOfFuel trace => trace

/-- The entries of the input list whose address is active, in input order. -/
def activeEntries (tv : transferValidatorOnIoTeX) (witnesses : List Witness) : List Witness :=
  witnesses.filter (fun w => isActiveWitness tv w.addr)

/-- The concatenation of the raw signatures of a list of entries. -/
def signatureBlob (entries : List Witness) : List Nat :=
  entries.flatMap Witness.signature

/-- The set of active witnesses of a state: the keys of the map whose value is true. -/
def activeSet (tv : transferValidatorOnIoTeX) : Finset Address :=
  ((tv.witnesses.map Prod.fst).filter (fun a => isActiveWitness tv a)).toFinset

/-- The contract call of an `Execute` event. -/
def Event.call? : Event → Option ExecuteCall
  | Event.execute call => some call
  | _ => none

/-- The contract calls dispatched in a trace, in order. -/
def dispatchedCalls (trace : List Event) : List ExecuteCall :=
  trace.filterMap Event.call?

/-- A map as `refresh` builds it: no key twice, every value true. -/
def WitnessMap.Fresh (m : WitnessMap) : Prop :=
  (m.map Prod.fst).Nodup ∧ ∀ p ∈ m, p.2 = true

/-! ## Scenarios

Concrete chains, states and inputs on which the statements are evaluated. -/

/-- A chain whose registry lists `items` (at most ten, so one page), whose
account fetch answers `account`, whose `settles` read answers height 0, whose
receipt query finds nothing and whose `Execute` answers `exec`. -/
def chainOf (items : List Address) (account : AccountMeta) (exec : Except Error Hash) : Chain :=
  { count := Except.ok (Except.ok (items.length : Int))
    getActiveItems := fun _ _ => Except.ok (Except.ok ⟨(items.length : Int), items⟩)
    settles := fun _ => Except.ok (Except.ok 0)
    GetAccount := fun _ => Except.ok account
    GetReceiptByAction := fun _ => Except.ok none
    Execute := fun _ => exec }

/-- A validator as the constructor leaves it: gas limit 2,000,000, gas price
one Qev, no witness set installed yet. -/
def tvA : transferValidatorOnIoTeX :=
  { gasLimit := 2000000
    gasPrice := 1000000000000
    relayerAddr := 9
    validatorContractAddr := 8
    witnessListContract := 6
    witnesses := [] }

/-- A transfer. -/
def transferA : Transfer :=
  { id := [1], cashier := 21, token := 22, index := 3, sender := 23, recipient := 24,
    amount := 1000, nonce := 7 }

/-- An account with nonce 5 and a balance that covers the gas. -/
def accountA : AccountMeta := { Nonce := 5, Balance := "5000000000000000000" }

/-- Four active witnesses. -/
def chain4 : Chain := chainOf [1, 2, 3, 4] accountA (Except.ok 77)

/-- Three active witnesses. -/
def chain3 : Chain := chainOf [1, 2, 3] accountA (Except.ok 77)

/-- Signatures of witnesses 1 and 2, and one of the inactive address 7. -/
def witnesses2 : List Witness := [⟨1, [11]⟩, ⟨7, [17]⟩, ⟨2, [12, 12]⟩]

/-- Signatures of witnesses 1, 2 and 3, and one of the inactive address 7. -/
def witnesses3 : List Witness := [⟨1, [11]⟩, ⟨7, [17]⟩, ⟨2, [12, 12]⟩, ⟨3, [13]⟩]

/-- Three signatures, all of witness 1. -/
def witnessesRepeated : List Witness := [⟨1, [11]⟩, ⟨1, [11]⟩, ⟨1, [11]⟩]

/-- Signatures of witnesses 1, 2 and 3, and two of the inactive address 7. -/
def witnessesInactiveTwice : List Witness :=
  [⟨1, [11]⟩, ⟨7, [17]⟩, ⟨7, [17, 17]⟩, ⟨2, [12, 12]⟩, ⟨3, [13]⟩]

/-- One active witness, and an account whose balance string is not a number. -/
def chainMalformed : Chain := chainOf [1] { Nonce := 5, Balance := "1e18" } (Except.ok 77)

/-- The signature of witness 1. -/
def witnesses1 : List Witness := [⟨1, [11]⟩]

/-- An account whose nonce is the largest `uint64`. -/
def accountMax : AccountMeta := { Nonce := 18446744073709551615, Balance := "5000000000000000000" }

/-- Four active witnesses, the relayer account at the largest nonce. -/
def chain4Max : Chain := chainOf [1, 2, 3, 4] accountMax (Except.ok 77)

/-- The list `witnesses3` with further inactive entries put in. -/
def witnesses3Padded : List Witness :=
  [⟨8, [18]⟩, ⟨1, [11]⟩, ⟨2, [12, 12]⟩, ⟨7, []⟩, ⟨7, [17, 17]⟩, ⟨3, [13]⟩, ⟨9, [19]⟩]

/-- The contract call that `Submit` builds from `transferA`, the signatures of
witnesses 1, 2 and 3, and the account `accountA` (nonce 5). -/
def callA : ExecuteCall :=
  { method := "submit", cashier := 21, token := 22, index := 3, sender := 23,
    recipient := 24, amount := 1000, signatures := [11, 12, 12, 13],
    gasPrice := 1000000000000, gasLimit := 2000000, nonce := 6 }

/-- The chain `chain4` where the transfer is settled at height 12 and a receipt
(of status 0) exists as well. -/
def chainSettled : Chain :=
  { chain4 with
    settles := fun _ => Except.ok (Except.ok 12)
    GetReceiptByAction := fun _ => Except.ok (some ⟨0⟩) }

/-- The chain `chain4` where the receipt query finds a receipt of the given status. -/
def chainReceipt (status : Nat) : Chain :=
  { chain4 with GetReceiptByAction := fun _ => Except.ok (some ⟨status⟩) }

/-- The transfer `transferA` with nonce 5, the nonce of the account `accountA`. -/
def transferB : Transfer := { transferA with nonce := 5 }

/-- The chain `chain4` with the account fetch failing. -/
def chainAccountDown : Chain :=
  { chain4 with GetAccount := fun _ => Except.error (Error.remote "account unavailable") }

/-- The chain `chain4` with the settles read failing. -/
def chainSettlesDown : Chain :=
  { chain4 with settles := fun _ => Except.error (Error.remote "settles unavailable") }

/-- The chain `chain4` with the settles read answering data that do not decode. -/
def chainSettlesGarbled : Chain :=
  { chain4 with settles := fun _ => Except.ok (Except.error (Error.remote "settles garbled")) }

/-- The transfer `transferA` under another identifier. -/
def transferC : Transfer := { transferA with id := [2] }

/-- A chain like `chain4` whose registry answers the given count and the given
page at each offset. -/
def chainPaged (count : Int) (pages : Int → Except Error (Except Error ActiveItems)) : Chain :=
  { chain4 with
    count := Except.ok (Except.ok count)
    getActiveItems := fun offset _ => pages offset }

/-- Three pages for 25 witnesses: two full pages, then a page that returns
count 5 in an array of ten whose last five entries are zero. -/
def pagesA (offset : Int) : Except Error (Except Error ActiveItems) :=
  if offset = 0 then
    Except.ok (Except.ok ⟨10, [1, 2, 3, 4, 5, 6, 7, 8, 9, 10]⟩)
  else if offset = 10 then
    Except.ok (Except.ok ⟨10, [11, 12, 13, 14, 15, 16, 17, 18, 19, 20]⟩)
  else
    Except.ok (Except.ok ⟨5, [21, 22, 23, 24, 25, 0, 0, 0, 0, 0]⟩)

/-- The pages `pagesA` with the read of the second page failing. -/
def pagesDown (offset : Int) : Except Error (Except Error ActiveItems) :=
  if offset = 10 then Except.error (Error.remote "page unavailable") else pagesA offset

/-- Pages that decode to a returned count of 5 and no items. -/
def pagesShort (_ : Int) : Except Error (Except Error ActiveItems) :=
  Except.ok (Except.ok ⟨5, []⟩)

/-- The chain `chain4` with the count read failing. -/
def chainCountDown : Chain :=
  { chain4 with count := Except.error (Error.remote "count unavailable") }

/-- The validator `tvA` with the witnesses 1 and 2 installed. -/
def tvInstalled : transferValidatorOnIoTeX :=
  { tvA with witnesses := [(1, true), (2, true)] }

/-- An empty registry. -/
def chain0 : Chain := chainOf [] accountA (Except.ok 77)

/-- The account fetch of `chain4` with the balance replaced. -/
def accountWith (balance : String) : Address → Except Error AccountMeta :=
  fun _ => Except.ok { Nonce := 5, Balance := balance }

/-- A construction in which the read of `witnessList` succeeds and the
unpacking of its raw result fails. -/
def constructionGarbled : Construction :=
  { validatorABI := none
    witnessList := Except.ok (Except.error (Error.remote "unpack failed"))
    witnessContractABI := none
    relayer := 9 }

/-! ## Basic facts -/

theorem FromBytes_Bytes (a : Address) :
    FromBytes (Address.Bytes a) = Except.ok (Address.Bytes a) := by
  simp [FromBytes, Address.Bytes]

theorem collectSignatures_eq (tv : transferValidatorOnIoTeX) (witnesses : List Witness) :
    ∀ (signatures : List Nat) (n : Nat),
      collectSignatures tv witnesses signatures n =
        Except.ok (signatures ++ signatureBlob (activeEntries tv witnesses),
          n + (activeEntries tv witnesses).length) := by
  induction witnesses with
  | nil => intro signatures n; simp [collectSignatures, activeEntries, signatureBlob]
  | cons w rest ih =>
    intro signatures n
    by_cases hw : isActiveWitness tv w.addr = true
    · simp [collectSignatures, hw, ih, activeEntries, signatureBlob, List.filter_cons]
      omega
    · simp only [Bool.not_eq_true] at hw
      simp [collectSignatures, hw, ih, activeEntries, signatureBlob, List.filter_cons,
        FromBytes_Bytes]

theorem refreshPages_trace (c : Chain) (count : Int) (P : Event → Prop)
    (hP : ∀ offset limit, P (Event.readActiveItems offset limit)) :
    ∀ (fuel : Nat) (offset : Int) (witnesses : List Address) (trace : List Event),
      (∀ e ∈ trace, P e) →
      ∀ e ∈ (refreshPages c count fuel offset witnesses trace).trace, P e := by
  intro fuel
  induction fuel with
  | zero => intro offset witnesses trace h; simpa [refreshPages, Pages.trace] using h
  | succ fuel ih =>
    intro offset witnesses trace h
    have h' : ∀ e ∈ trace ++ [Event.readActiveItems offset 10], P e := by
      intro e he
      rcases List.mem_append.mp he with he | he
      · exact h e he
      · rw [List.mem_singleton.mp he]; exact hP _ _
    unfold refreshPages
    split
    · dsimp only
      split
      · simpa [Pages.trace] using h'
      · split
        · simpa [Pages.trace] using h'
        · split
          · simpa [Pages.trace] using h'
          · exact ih _ _ _ h'
    · simpa [Pages.trace] using h

theorem refreshPages_fuel (c : Chain) (count : Int) :
    ∀ (fuel : Nat) (offset : Int) (witnesses : List Address) (trace trace' : List Event),
      (count - offset).toNat < fuel →
      refreshPages c count fuel offset witnesses trace ≠ Pages.outOfFuel trace' := by
  intro fuel
  induction fuel with
  | zero => intro offset witnesses trace trace' h; omega
  | succ fuel ih =>
    intro offset witnesses trace trace' h
    unfold refreshPages
    split
    · rename_i hlt
      dsimp only
      split
      · simp
      · split
        · simp
        · split
          · simp
          · exact ih _ _ _ _ (by omega)
    · simp

theorem refresh_not_diverged (c : Chain) (tv : transferValidatorOnIoTeX) :
    (refresh c tv).out ≠ Outcome.diverged := by
  unfold refresh
  split
  · simp
  · split
    · simp
    · rename_i count hcount
      split
      · simp
      · simp
      · rename_i heq
        exact absurd heq (refreshPages_fuel c count _ _ _ _ _ (by omega))
      · split <;> simp

theorem Submit_not_diverged (c : Chain) (tv : transferValidatorOnIoTeX)
    (transfer : Transfer) (witnesses : List Witness) :
    (Submit c tv transfer witnesses).out ≠ Outcome.diverged := by
  have hr := refresh_not_diverged c tv
  unfold Submit
  dsimp only
  split
  · simp
  · rename_i heq
    exact absurd heq hr
  · simp
  · rw [collectSignatures_eq]
    dsimp only
    split
    · simp
    · unfold submitDispatch
      dsimp only
      split
      · simp
      · split
        · simp
        · split <;> simp

theorem refresh_trace (c : Chain) (tv : transferValidatorOnIoTeX) (P : Event → Prop)
    (h0 : P Event.readCount) (hP : ∀ offset limit, P (Event.readActiveItems offset limit)) :
    ∀ e ∈ (refresh c tv).trace, P e := by
  unfold refresh
  split
  · simpa using h0
  · split
    · simpa using h0
    · rename_i count hcount
      have key := refreshPages_trace c count P hP (count.toNat + 1) 0 [] [Event.readCount]
        (by simpa using h0)
      split
      all_goals rename_i heq
      all_goals rw [heq] at key
      · simpa [Pages.trace] using key
      · simpa [Pages.trace] using key
      · simpa [Pages.trace] using key
      · split <;> simpa [Pages.trace] using key

theorem refresh_tv (c : Chain) (tv : transferValidatorOnIoTeX) :
    (refresh c tv).tv = { tv with witnesses := (refresh c tv).tv.witnesses } := by
  unfold refresh
  split
  · rfl
  · split
    · rfl
    · split
      · rfl
      · rfl
      · rfl
      · split <;> rfl

theorem mapSet_keys (m : WitnessMap) (k : Address) (v : Bool) :
    (mapSet m k v).map Prod.fst =
      if k ∈ m.map Prod.fst then m.map Prod.fst else m.map Prod.fst ++ [k] := by
  induction m with
  | nil => simp [mapSet]
  | cons p rest ih =>
    obtain ⟨k', v'⟩ := p
    by_cases hk : k' = k
    · simp [mapSet, hk]
    · have hk' : ¬ k = k' := fun h => hk h.symm
      simp only [mapSet, hk, if_false, List.map_cons, ih, List.mem_cons, hk', false_or]
      split <;> simp

theorem mapSet_values (m : WitnessMap) (k : Address) (h : ∀ p ∈ m, p.2 = true) :
    ∀ p ∈ mapSet m k true, p.2 = true := by
  induction m with
  | nil => simp [mapSet]
  | cons q rest ih =>
    obtain ⟨k', v'⟩ := q
    have hrest : ∀ p ∈ rest, p.2 = true := fun p hp => h p (List.mem_cons_of_mem _ hp)
    by_cases hk : k' = k
    · intro p hp
      simp only [mapSet, hk, if_true, List.mem_cons] at hp
      rcases hp with hp | hp
      · rw [hp]
      · exact hrest p hp
    · intro p hp
      simp only [mapSet, hk, if_false, List.mem_cons] at hp
      rcases hp with hp | hp
      · rw [hp]; exact h (k', v') (List.mem_cons_self _ _)
      · exact ih hrest p hp

theorem mapSet_fresh (m : WitnessMap) (k : Address) (h : WitnessMap.Fresh m) :
    WitnessMap.Fresh (mapSet m k true) := by
  refine ⟨?_, mapSet_values m k h.2⟩
  rw [mapSet_keys]
  split
  · exact h.1
  · rename_i hk
    exact List.Nodup.append h.1 (List.nodup_singleton k) (by simpa using hk)

theorem fillActive_fresh (witnesses : List Address) :
    ∀ (m m' : WitnessMap), WitnessMap.Fresh m → fillActive witnesses m = Except.ok m' →
      WitnessMap.Fresh m' := by
  induction witnesses with
  | nil =>
    intro m m' hm h
    simp only [fillActive, Except.ok.injEq] at h
    exact h ▸ hm
  | cons w rest ih =>
    intro m m' hm h
    simp only [fillActive, FromBytes_Bytes] at h
    exact ih _ _ (mapSet_fresh m w hm) h

theorem refresh_fresh (c : Chain) (tv : transferValidatorOnIoTeX)
    (h : (refresh c tv).out = Outcome.returned none) :
    WitnessMap.Fresh (refresh c tv).tv.witnesses := by
  unfold refresh at h ⊢
  split at h
  · simp at h
  · split at h
    · simp at h
    · split at h
      · simp at h
      · simp at h
      · simp at h
      · split at h
        · simp at h
        · rename_i hfill
          exact fillActive_fresh _ _ _ (by simp [WitnessMap.Fresh]) hfill

theorem mapGet_eq_none (m : WitnessMap) (k : Address) :
    mapGet m k = none ↔ k ∉ m.map Prod.fst := by
  induction m with
  | nil => simp [mapGet]
  | cons p rest ih =>
    obtain ⟨k', v'⟩ := p
    by_cases hk : k' = k
    · simp [mapGet, hk]
    · have hk' : ¬ k = k' := fun h => hk h.symm
      simp [mapGet, hk, hk', ih]

theorem mapGet_fresh (m : WitnessMap) (k : Address) (h : ∀ p ∈ m, p.2 = true) :
    mapGet m k = some true ↔ k ∈ m.map Prod.fst := by
  induction m with
  | nil => simp [mapGet]
  | cons p rest ih =>
    obtain ⟨k', v'⟩ := p
    have hv : v' = true := h (k', v') (List.mem_cons_self _ _)
    have hrest : ∀ p ∈ rest, p.2 = true := fun p hp => h p (List.mem_cons_of_mem _ hp)
    by_cases hk : k' = k
    · simp [mapGet, hk, hv]
    · have hk' : ¬ k = k' := fun h => hk h.symm
      simp [mapGet, hk, hk', ih hrest]

theorem isActiveWitness_keys (tv : transferValidatorOnIoTeX) (a : Address)
    (h : isActiveWitness tv a = true) : a ∈ tv.witnesses.map Prod.fst := by
  by_contra hn
  have := (mapGet_eq_none tv.witnesses a).mpr hn
  simp [isActiveWitness, this] at h

theorem isActiveWitness_fresh (tv : transferValidatorOnIoTeX) (a : Address)
    (h : WitnessMap.Fresh tv.witnesses) :
    isActiveWitness tv a = true ↔ a ∈ tv.witnesses.map Prod.fst := by
  refine ⟨isActiveWitness_keys tv a, fun hk => ?_⟩
  have := (mapGet_fresh tv.witnesses a h.2).mpr hk
  simp [isActiveWitness, this]

theorem activeSet_card (tv : transferValidatorOnIoTeX) (h : WitnessMap.Fresh tv.witnesses) :
    (activeSet tv).card = mapLen tv.witnesses := by
  have hall : (tv.witnesses.map Prod.fst).filter (fun a => isActiveWitness tv a) =
      tv.witnesses.map Prod.fst := by
    rw [List.filter_eq_self]
    intro a ha
    exact (isActiveWitness_fresh tv a h).mpr ha
  unfold activeSet
  rw [hall, List.toFinset_card_of_nodup h.1]
  simp [mapLen]

theorem Submit_of_refresh_ok (c : Chain) (tv : transferValidatorOnIoTeX) (transfer : Transfer)
    (witnesses : List Witness) (h : (refresh c tv).out = Outcome.returned none) :
    Submit c tv transfer witnesses =
      if (activeEntries (refresh c tv).tv witnesses).length * 3 ≤
          mapLen (refresh c tv).tv.witnesses * 2 then
        ⟨(refresh c tv).tv, Outcome.returned (0, 0, some Error.errInsufficientWitnesses),
          (refresh c tv).trace⟩
      else
        submitDispatch c (refresh c tv).tv transfer
          (signatureBlob (activeEntries (refresh c tv).tv witnesses)) (refresh c tv).trace := by
  simp [Submit, h, collectSignatures_eq]

theorem submitDispatch_getAccount (c : Chain) (tv : transferValidatorOnIoTeX)
    (transfer : Transfer) (signatures : List Nat) (trace : List Event) :
    Event.getAccount tv.relayerAddr ∈ (submitDispatch c tv transfer signatures trace).trace := by
  unfold submitDispatch
  dsimp only
  split
  · simp
  · split
    · simp
    · split <;> split <;> simp

theorem refresh_trace_quiet (c : Chain) (tv : transferValidatorOnIoTeX) :
    ∀ e ∈ (refresh c tv).trace, e.isGetAccount = false ∧ e.isExecute = false :=
  refresh_trace c tv (fun e => e.isGetAccount = false ∧ e.isExecute = false)
    ⟨rfl, rfl⟩ (fun _ _ => ⟨rfl, rfl⟩)

theorem Submit_trace_of_refresh_not_ok (c : Chain) (tv : transferValidatorOnIoTeX)
    (transfer : Transfer) (witnesses : List Witness)
    (h : (refresh c tv).out ≠ Outcome.returned none) :
    (Submit c tv transfer witnesses).trace = (refresh c tv).trace := by
  unfold Submit
  dsimp only
  split
  · rfl
  · rfl
  · rfl
  · rename_i heq
    exact absurd heq h

theorem Submit_dispatch_quorum (c : Chain) (tv : transferValidatorOnIoTeX)
    (transfer : Transfer) (witnesses : List Witness)
    (hd : ∃ e ∈ (Submit c tv transfer witnesses).trace, e.isExecute = true) :
    (refresh c tv).out = Outcome.returned none ∧
      3 * (activeEntries (refresh c tv).tv witnesses).length >
        2 * mapLen (refresh c tv).tv.witnesses := by
  obtain ⟨e, he, hex⟩ := hd
  have hok : (refresh c tv).out = Outcome.returned none := by
    by_contra hn
    rw [Submit_trace_of_refresh_not_ok c tv transfer witnesses hn] at he
    have := (refresh_trace_quiet c tv e he).2
    rw [this] at hex
    exact absurd hex (by simp)
  refine ⟨hok, ?_⟩
  by_contra hq
  rw [Submit_of_refresh_ok c tv transfer witnesses hok, if_pos (by omega)] at he
  have := (refresh_trace_quiet c tv e he).2
  rw [this] at hex
  exact absurd hex (by simp)

theorem activeEntries_length_nodup (tv : transferValidatorOnIoTeX) (witnesses : List Witness)
    (hnodup : ((activeEntries tv witnesses).map Witness.addr).Nodup) :
    (activeEntries tv witnesses).length =
      ((activeSet tv).filter (fun a => a ∈ witnesses.map Witness.addr)).card := by
  have hmap : (witnesses.map Witness.addr).filter (fun a => isActiveWitness tv a) =
      (activeEntries tv witnesses).map Witness.addr := by
    rw [List.filter_map]
    rfl
  have h2 : ((witnesses.map Witness.addr).filter (fun a => isActiveWitness tv a)).toFinset =
      (activeSet tv).filter (fun a => a ∈ witnesses.map Witness.addr) := by
    ext a
    simp only [List.mem_toFinset, List.mem_filter, Finset.mem_filter, activeSet]
    constructor
    · rintro ⟨hin, hact⟩
      exact ⟨⟨isActiveWitness_keys tv a hact, hact⟩, hin⟩
    · rintro ⟨⟨_, hact⟩, hin⟩
      exact ⟨hin, hact⟩
  rw [← h2, hmap, List.toFinset_card_of_nodup hnodup, List.length_map]

theorem refresh_dispatchedCalls (c : Chain) (tv : transferValidatorOnIoTeX) :
    dispatchedCalls (refresh c tv).trace = [] := by
  unfold dispatchedCalls
  rw [List.filterMap_eq_nil_iff]
  exact refresh_trace c tv (fun e => e.call? = none) rfl (fun _ _ => rfl)

theorem submitDispatch_malformed (c : Chain) (tv : transferValidatorOnIoTeX)
    (transfer : Transfer) (signatures : List Nat) (trace : List Event)
    (accountMeta : AccountMeta) (hacc : c.GetAccount tv.relayerAddr = Except.ok accountMeta)
    (hbal : SetString accountMeta.Balance = none) :
    submitDispatch c tv transfer signatures trace =
      ⟨tv, Outcome.returned (0, 0, none), trace ++ [Event.getAccount tv.relayerAddr]⟩ := by
  simp [submitDispatch, hacc, hbal, Wrapf]

theorem submitDispatch_ok (c : Chain) (tv : transferValidatorOnIoTeX)
    (transfer : Transfer) (signatures : List Nat) (trace : List Event)
    (accountMeta : AccountMeta) (balance : Int) (actionHash : Hash)
    (hacc : c.GetAccount tv.relayerAddr = Except.ok accountMeta)
    (hbal : SetString accountMeta.Balance = some balance)
    (hex : c.Execute (submitCall tv transfer signatures accountMeta) = Except.ok actionHash) :
    (submitDispatch c tv transfer signatures trace).out =
        Outcome.returned (actionHash, (accountMeta.Nonce + 1) % 2 ^ 64, none) ∧
      dispatchedCalls (submitDispatch c tv transfer signatures trace).trace =
        dispatchedCalls trace ++ [submitCall tv transfer signatures accountMeta] := by
  unfold submitDispatch
  simp only [hacc, hbal, hex, true_and]
  split <;> simp [dispatchedCalls, List.filterMap_append, Event.call?]

theorem dispatchedCalls_append (a b : List Event) :
    dispatchedCalls (a ++ b) = dispatchedCalls a ++ dispatchedCalls b := by
  simp [dispatchedCalls, List.filterMap_append]

theorem submitDispatch_calls (c : Chain) (tv : transferValidatorOnIoTeX)
    (transfer : Transfer) (signatures : List Nat) (trace : List Event) :
    dispatchedCalls (submitDispatch c tv transfer signatures trace).trace =
        dispatchedCalls trace ∨
      ∃ accountMeta, dispatchedCalls (submitDispatch c tv transfer signatures trace).trace =
        dispatchedCalls trace ++ [submitCall tv transfer signatures accountMeta] := by
  have hacc : dispatchedCalls [Event.getAccount tv.relayerAddr] = [] := rfl
  unfold submitDispatch
  dsimp only
  split
  · left
    simp [dispatchedCalls_append, hacc]
  · split
    · left
      simp [dispatchedCalls_append, hacc]
    · rename_i accountMeta _ _ _ _
      right
      refine ⟨accountMeta, ?_⟩
      split <;> split <;> simp [dispatchedCalls_append] <;> rfl

theorem Submit_congr (c : Chain) (tv : transferValidatorOnIoTeX) (transfer : Transfer)
    (witnesses witnesses' : List Witness)
    (h : activeEntries (refresh c tv).tv witnesses' = activeEntries (refresh c tv).tv witnesses) :
    Submit c tv transfer witnesses' = Submit c tv transfer witnesses := by
  unfold Submit
  simp only [collectSignatures_eq, h]

theorem activeEntries_idem (tv : transferValidatorOnIoTeX) (witnesses : List Witness) :
    activeEntries tv (activeEntries tv witnesses) = activeEntries tv witnesses := by
  simp [activeEntries, List.filter_filter]

theorem refresh_relayerAddr (c : Chain) (tv : transferValidatorOnIoTeX) :
    (refresh c tv).tv.relayerAddr = tv.relayerAddr := by
  rw [refresh_tv]

theorem Submit_malformed_balance (c : Chain) (tv : transferValidatorOnIoTeX)
    (transfer : Transfer) (witnesses : List Witness) (accountMeta : AccountMeta)
    (hok : (refresh c tv).out = Outcome.returned none)
    (hq : 3 * (activeEntries (refresh c tv).tv witnesses).length >
      2 * mapLen (refresh c tv).tv.witnesses)
    (hacc : c.GetAccount tv.relayerAddr = Except.ok accountMeta)
    (hbal : SetString accountMeta.Balance = none) :
    (Submit c tv transfer witnesses).out = Outcome.returned (0, 0, none) := by
  rw [Submit_of_refresh_ok c tv transfer witnesses hok, if_neg (by omega),
    submitDispatch_malformed c _ transfer _ _ accountMeta
      (by rw [refresh_relayerAddr]; exact hacc) hbal]

/-! ## Facts about refresh -/

theorem refreshPages_step (c : Chain) (count : Int) (fuel : Nat) (offset : Int)
    (witnesses : List Address) (trace : List Event) (ret : ActiveItems) (items : List Address)
    (hlt : offset < count) (hpage : c.getActiveItems offset 10 = Except.ok (Except.ok ret))
    (hslice : sliceTo ret.Items (Int64 ret.Count) = some items) :
    refreshPages c count (fuel + 1) offset witnesses trace =
      refreshPages c count fuel (offset + 10) (witnesses ++ items)
        (trace ++ [Event.readActiveItems offset 10]) := by
  simp [refreshPages, hlt, hpage, hslice]

theorem refreshPages_exit (c : Chain) (count : Int) (fuel : Nat) (offset : Int)
    (witnesses : List Address) (trace : List Event) (hge : ¬ offset < count) :
    refreshPages c count (fuel + 1) offset witnesses trace = Pages.done witnesses trace := by
  simp [refreshPages, hge]

theorem refreshPages_failed_source (c : Chain) (count : Int) (e : Error) :
    ∀ (fuel : Nat) (offset : Int) (witnesses : List Address) (trace trace' : List Event),
      refreshPages c count fuel offset witnesses trace = Pages.failed e trace' →
      ∃ k : Nat, offset + 10 * (k : Int) < count ∧
        (c.getActiveItems (offset + 10 * (k : Int)) 10 = Except.error e ∨
          c.getActiveItems (offset + 10 * (k : Int)) 10 = Except.ok (Except.error e)) := by
  intro fuel
  induction fuel with
  | zero => intro offset witnesses trace trace' h; simp [refreshPages] at h
  | succ fuel ih =>
    intro offset witnesses trace trace' h
    unfold refreshPages at h
    split at h
    · rename_i hlt
      dsimp only at h
      split at h
      · rename_i err hread
        simp only [Pages.failed.injEq] at h
        exact ⟨0, by simpa using hlt, Or.inl (by simpa [h.1] using hread)⟩
      · split at h
        · rename_i err hread
          simp only [Pages.failed.injEq] at h
          exact ⟨0, by simpa using hlt, Or.inr (by simpa [h.1] using hread)⟩
        · split at h
          · simp at h
          · obtain ⟨k, hk, hsrc⟩ := ih _ _ _ _ h
            refine ⟨k + 1, ?_, ?_⟩
            · push_cast; omega
            · have hoff : offset + 10 * ((k + 1 : Nat) : Int) = offset + 10 + 10 * (k : Int) := by
                push_cast; ring
              rw [hoff]; exact hsrc
    · simp at h

theorem fillActive_eq (witnesses : List Address) :
    ∀ m : WitnessMap,
      fillActive witnesses m = Except.ok (witnesses.foldl (fun m w => mapSet m w true) m) := by
  induction witnesses with
  | nil => intro m; rfl
  | cons w rest ih => intro m; simp [fillActive, FromBytes_Bytes, ih]

theorem refresh_tv_of_not_ok (c : Chain) (tv : transferValidatorOnIoTeX)
    (h : (refresh c tv).out ≠ Outcome.returned none) : (refresh c tv).tv = tv := by
  revert h
  unfold refresh
  cases c.count with
  | error err => intro _; rfl
  | ok countData =>
    cases countData with
    | error err => intro _; rfl
    | ok count =>
      dsimp only
      cases refreshPages c count (count.toNat + 1) 0 [] [Event.readCount] with
      | failed err trace => intro _; rfl
      | panicked trace => intro _; rfl
      | outOfFuel trace => intro _; rfl
      | done witnesses trace => simp [fillActive_eq]

theorem refresh_failed_source (c : Chain) (tv : transferValidatorOnIoTeX) (e : Error)
    (h : (refresh c tv).out = Outcome.returned (some e)) :
    c.count = Except.error e ∨ c.count = Except.ok (Except.error e) ∨
      ∃ k : Nat, c.getActiveItems (10 * (k : Int)) 10 = Except.error e ∨
        c.getActiveItems (10 * (k : Int)) 10 = Except.ok (Except.error e) := by
  unfold refresh at h
  split at h
  · rename_i err hcount
    simp only [Outcome.returned.injEq, Option.some.injEq] at h
    exact Or.inl (by rw [← h]; exact hcount)
  · split at h
    · rename_i err hcount
      simp only [Outcome.returned.injEq, Option.some.injEq] at h
      exact Or.inr (Or.inl (by rw [← h]; exact hcount))
    · split at h
      · rename_i err trace hpages
        simp only [Outcome.returned.injEq, Option.some.injEq] at h
        rw [h] at hpages
        obtain ⟨k, _, hsrc⟩ := refreshPages_failed_source c _ e _ _ _ _ _ hpages
        refine Or.inr (Or.inr ⟨k, ?_⟩)
        simpa using hsrc
      · simp at h
      · simp at h
      · simp [fillActive_eq] at h

theorem refresh_indep (c : Chain) (tv tv' : transferValidatorOnIoTeX) :
    (refresh c tv').out = (refresh c tv).out ∧ (refresh c tv').trace = (refresh c tv).trace ∧
      (refresh c tv').tv.witnesses =
        (if (refresh c tv).out = Outcome.returned none then (refresh c tv).tv.witnesses
          else tv'.witnesses) := by
  unfold refresh
  cases c.count with
  | error err => simp
  | ok countData =>
    cases countData with
    | error err => simp
    | ok count =>
      dsimp only
      cases refreshPages c count (count.toNat + 1) 0 [] [Event.readCount] with
      | failed err trace => simp
      | panicked trace => simp
      | outOfFuel trace => simp
      | done witnesses trace => simp [fillActive_eq]

theorem Int64_of_fits (x : Int) (hlo : -2 ^ 63 ≤ x) (hhi : x < 2 ^ 63) : Int64 x = x := by
  unfold Int64
  omega

theorem sliceTo_in_range (items : List Address) (n : Int) (h0 : 0 ≤ n)
    (hlen : n ≤ (items.length : Int)) (hfit : n < 2 ^ 63) :
    sliceTo items (Int64 n) = some (items.take n.toNat) := by
  rw [Int64_of_fits n (by omega) hfit]
  simp [sliceTo, h0, hlen]

theorem refreshPages_not_panicked (c : Chain) (count : Int)
    (hrange : ∀ offset ret, c.getActiveItems offset 10 = Except.ok (Except.ok ret) →
      sliceTo ret.Items (Int64 ret.Count) ≠ none) :
    ∀ (fuel : Nat) (offset : Int) (witnesses : List Address) (trace trace' : List Event),
      refreshPages c count fuel offset witnesses trace ≠ Pages.panicked trace' := by
  intro fuel
  induction fuel with
  | zero => intro offset witnesses trace trace'; simp [refreshPages]
  | succ fuel ih =>
    intro offset witnesses trace trace'
    unfold refreshPages
    split
    · dsimp only
      split
      · simp
      · split
        · simp
        · rename_i ret hpage
          split
          · rename_i hslice
            exact absurd hslice (hrange offset ret hpage)
          · exact ih _ _ _ _
    · simp

theorem refreshPages_fails_at (c : Chain) (count : Int) (e : Error) :
    ∀ (k fuel : Nat) (offset : Int) (witnesses : List Address) (trace : List Event),
      k < fuel →
      (∀ j : Nat, j < k → ∃ ret items,
        c.getActiveItems (offset + 10 * (j : Int)) 10 = Except.ok (Except.ok ret) ∧
          sliceTo ret.Items (Int64 ret.Count) = some items) →
      offset + 10 * (k : Int) < count →
      (c.getActiveItems (offset + 10 * (k : Int)) 10 = Except.error e ∨
        c.getActiveItems (offset + 10 * (k : Int)) 10 = Except.ok (Except.error e)) →
      ∃ trace', refreshPages c count fuel offset witnesses trace = Pages.failed e trace' := by
  intro k
  induction k with
  | zero =>
    intro fuel offset witnesses trace hfuel _ hlt hfail
    obtain ⟨fuel, rfl⟩ : ∃ f, fuel = f + 1 := ⟨fuel - 1, by omega⟩
    simp only [Nat.cast_zero, mul_zero, add_zero] at hlt hfail
    rcases hfail with hfail | hfail <;> simp [refreshPages, hlt, hfail]
  | succ k ih =>
    intro fuel offset witnesses trace hfuel hgood hlt hfail
    obtain ⟨fuel, rfl⟩ : ∃ f, fuel = f + 1 := ⟨fuel - 1, by omega⟩
    have hoff : offset + 10 * ((k + 1 : Nat) : Int) = offset + 10 + 10 * (k : Int) := by
      push_cast; ring
    obtain ⟨ret, items, hpage, hslice⟩ := hgood 0 (by omega)
    simp only [Nat.cast_zero, mul_zero, add_zero] at hpage
    rw [refreshPages_step c count fuel offset witnesses trace ret items (by omega) hpage hslice]
    rw [hoff] at hlt hfail
    refine ih fuel (offset + 10) _ _ (by omega) (fun j hj => ?_) hlt hfail
    have := hgood (j + 1) (by omega)
    have hoffj : offset + 10 * ((j + 1 : Nat) : Int) = offset + 10 + 10 * (j : Int) := by
      push_cast; ring
    rwa [hoffj] at this

theorem refreshPages_done_trace (c : Chain) (count : Int) :
    ∀ (fuel : Nat) (offset : Int) (witnesses : List Address) (trace : List Event),
      (count - offset).toNat < fuel →
      (∀ k : Nat, offset + 10 * (k : Int) < count → ∃ ret items,
        c.getActiveItems (offset + 10 * (k : Int)) 10 = Except.ok (Except.ok ret) ∧
          sliceTo ret.Items (Int64 ret.Count) = some items) →
      ∃ witnesses', refreshPages c count fuel offset witnesses trace =
        Pages.done witnesses'
          (trace ++ (List.range ((count - offset + 9) / 10).toNat).map
            (fun k : Nat => Event.readActiveItems (offset + 10 * (k : Int)) 10)) := by
  intro fuel
  induction fuel with
  | zero => intro offset witnesses trace h; omega
  | succ fuel ih =>
    intro offset witnesses trace hfuel hgood
    by_cases hlt : offset < count
    · obtain ⟨ret, items, hpage, hslice⟩ := hgood 0 (by simpa using hlt)
      simp only [Nat.cast_zero, mul_zero, add_zero] at hpage
      rw [refreshPages_step c count fuel offset witnesses trace ret items hlt hpage hslice]
      have hgood' : ∀ k : Nat, offset + 10 + 10 * (k : Int) < count → ∃ ret items,
          c.getActiveItems (offset + 10 + 10 * (k : Int)) 10 = Except.ok (Except.ok ret) ∧
            sliceTo ret.Items (Int64 ret.Count) = some items := by
        intro k hk
        have hoff : offset + 10 * ((k + 1 : Nat) : Int) = offset + 10 + 10 * (k : Int) := by
          push_cast; ring
        have := hgood (k + 1) (by rw [hoff]; exact hk)
        rwa [hoff] at this
      obtain ⟨witnesses', hw⟩ := ih (offset + 10) (witnesses ++ items)
        (trace ++ [Event.readActiveItems offset 10]) (by omega) hgood'
      refine ⟨witnesses', ?_⟩
      rw [hw]
      have hn : ((count - offset + 9) / 10).toNat =
          ((count - (offset + 10) + 9) / 10).toNat + 1 := by omega
      rw [hn, List.range_succ_eq_map, List.map_cons, List.map_map, List.append_assoc]
      congr 2
      simp only [List.singleton_append, Nat.cast_zero, mul_zero, add_zero, List.cons.injEq,
        true_and]
      apply List.map_congr_left
      intro k _
      simp only [Function.comp, Nat.succ_eq_add_one]
      congr 1
      push_cast; ring
    · have hn : ((count - offset + 9) / 10).toNat = 0 := by omega
      rw [refreshPages_exit c count fuel offset witnesses trace hlt, hn]
      exact ⟨witnesses, by simp⟩

theorem refreshPages_done_mem (c : Chain) (count : Int) :
    ∀ (fuel : Nat) (offset : Int) (witnesses witnesses' : List Address)
      (trace trace' : List Event),
      refreshPages c count fuel offset witnesses trace = Pages.done witnesses' trace' →
      ∀ a, a ∈ witnesses' ↔ a ∈ witnesses ∨ ∃ (k : Nat) (ret : ActiveItems)
        (items : List Address), offset + 10 * (k : Int) < count ∧
          c.getActiveItems (offset + 10 * (k : Int)) 10 = Except.ok (Except.ok ret) ∧
          sliceTo ret.Items (Int64 ret.Count) = some items ∧ a ∈ items := by
  intro fuel
  induction fuel with
  | zero => intro offset witnesses witnesses' trace trace' h; simp [refreshPages] at h
  | succ fuel ih =>
    intro offset witnesses witnesses' trace trace' h a
    by_cases hlt : offset < count
    · unfold refreshPages at h
      rw [if_pos hlt] at h
      dsimp only at h
      split at h
      · simp at h
      · split at h
        · simp at h
        · rename_i ret hread
          split at h
          · simp at h
          · rename_i items hslice
            rw [ih _ _ _ _ _ h a, List.mem_append]
            constructor
            · rintro ((ha | ha) | ⟨k, ret', items', hk, hpage, hs, ha⟩)
              · exact Or.inl ha
              · exact Or.inr ⟨0, ret, items, by simpa using hlt, by simpa using hread,
                  hslice, ha⟩
              · refine Or.inr ⟨k + 1, ret', items', ?_, ?_, hs, ha⟩
                · push_cast; omega
                · have hoff : offset + 10 * ((k + 1 : Nat) : Int) =
                      offset + 10 + 10 * (k : Int) := by push_cast; ring
                  rw [hoff]; exact hpage
            · rintro (ha | ⟨k, ret', items', hk, hpage, hs, ha⟩)
              · exact Or.inl (Or.inl ha)
              · cases k with
                | zero =>
                  simp only [Nat.cast_zero, mul_zero, add_zero] at hpage
                  rw [hread] at hpage
                  simp only [Except.ok.injEq] at hpage
                  subst hpage
                  rw [hslice] at hs
                  simp only [Option.some.injEq] at hs
                  subst hs
                  exact Or.inl (Or.inr ha)
                | succ k =>
                  have hoff : offset + 10 * ((k + 1 : Nat) : Int) =
                      offset + 10 + 10 * (k : Int) := by push_cast; ring
                  rw [hoff] at hk hpage
                  exact Or.inr ⟨k, ret', items', hk, hpage, hs, ha⟩
    · rw [refreshPages_exit c count fuel offset witnesses trace hlt] at h
      simp only [Pages.done.injEq] at h
      rw [← h.1]
      constructor
      · exact fun ha => Or.inl ha
      · rintro (ha | ⟨k, _, _, hk, _⟩)
        · exact ha
        · exact absurd hk (by omega)

theorem foldl_mapSet_keys (witnesses : List Address) :
    ∀ (m : WitnessMap) (a : Address),
      a ∈ (witnesses.foldl (fun m w => mapSet m w true) m).map Prod.fst ↔
        a ∈ m.map Prod.fst ∨ a ∈ witnesses := by
  induction witnesses with
  | nil => intro m a; simp
  | cons w rest ih =>
    intro m a
    rw [List.foldl_cons, ih, mapSet_keys]
    by_cases hw : w ∈ m.map Prod.fst
    · rw [if_pos hw, List.mem_cons]
      constructor
      · rintro (h | h)
        · exact Or.inl h
        · exact Or.inr (Or.inr h)
      · rintro (h | h | h)
        · exact Or.inl h
        · exact Or.inl (h ▸ hw)
        · exact Or.inr h
    · rw [if_neg hw, List.mem_append, List.mem_singleton, List.mem_cons]
      tauto

theorem refresh_ok_pages (c : Chain) (tv : transferValidatorOnIoTeX) (count : Int)
    (hok : (refresh c tv).out = Outcome.returned none)
    (hcount : c.count = Except.ok (Except.ok count)) :
    ∃ witnesses trace,
      refreshPages c count (count.toNat + 1) 0 [] [Event.readCount] =
        Pages.done witnesses trace ∧
      (refresh c tv).trace = trace ∧
      (refresh c tv).tv.witnesses = witnesses.foldl (fun m w => mapSet m w true) [] := by
  revert hok
  unfold refresh
  rw [hcount]
  dsimp only
  cases refreshPages c count (count.toNat + 1) 0 [] [Event.readCount] with
  | failed err trace => simp
  | panicked trace => simp
  | outOfFuel trace => simp
  | done witnesses trace =>
    intro _
    exact ⟨witnesses, trace, rfl, by simp [fillActive_eq], by simp [fillActive_eq]⟩

theorem refresh_of_pages_done (c : Chain) (tv : transferValidatorOnIoTeX) (count : Int)
    (witnesses : List Address) (trace : List Event)
    (hcount : c.count = Except.ok (Except.ok count))
    (hpages : refreshPages c count (count.toNat + 1) 0 [] [Event.readCount] =
      Pages.done witnesses trace) :
    refresh c tv =
      ⟨{ tv with witnesses := witnesses.foldl (fun m w => mapSet m w true) [] },
        Outcome.returned none, trace⟩ := by
  unfold refresh
  rw [hcount]
  dsimp only
  rw [hpages]
  simp [fillActive_eq]

theorem refreshPages_congr (c c' : Chain) (count : Int)
    (h : c'.getActiveItems = c.getActiveItems) :
    ∀ (fuel : Nat) (offset : Int) (witnesses : List Address) (trace : List Event),
      refreshPages c' count fuel offset witnesses trace =
        refreshPages c count fuel offset witnesses trace := by
  intro fuel
  induction fuel with
  | zero => intro offset witnesses trace; rfl
  | succ fuel ih =>
    intro offset witnesses trace
    unfold refreshPages
    simp only [h, ih]

theorem refresh_congr (c c' : Chain) (tv : transferValidatorOnIoTeX)
    (hcount : c'.count = c.count) (hpages : c'.getActiveItems = c.getActiveItems) :
    refresh c' tv = refresh c tv := by
  unfold refresh
  simp only [hcount, refreshPages_congr c c' _ hpages]

theorem Submit_of_refresh_failed (c : Chain) (tv : transferValidatorOnIoTeX)
    (transfer : Transfer) (witnesses : List Witness) (e : Error)
    (h : (refresh c tv).out = Outcome.returned (some e)) :
    Submit c tv transfer witnesses =
      ⟨(refresh c tv).tv, Outcome.returned (0, 0, some e), (refresh c tv).trace⟩ := by
  simp [Submit, h]

theorem Submit_out_of_refresh_not_ok (c c' : Chain) (tv : transferValidatorOnIoTeX)
    (transfer : Transfer) (witnesses : List Witness) (hr : refresh c' tv = refresh c tv)
    (h : (refresh c tv).out ≠ Outcome.returned none) :
    Submit c' tv transfer witnesses = Submit c tv transfer witnesses := by
  revert h
  unfold Submit
  rw [hr]
  dsimp only
  cases (refresh c tv).out with
  | panicked => intro _; rfl
  | diverged => intro _; rfl
  | returned err =>
    cases err with
    | some e => intro _; rfl
    | none => intro h; exact absurd rfl h

theorem submitDispatch_parsed (c : Chain) (tv : transferValidatorOnIoTeX)
    (transfer : Transfer) (signatures : List Nat) (trace : List Event)
    (accountMeta : AccountMeta) (balance : Int)
    (hacc : c.GetAccount tv.relayerAddr = Except.ok accountMeta)
    (hbal : SetString accountMeta.Balance = some balance) :
    (submitDispatch c tv transfer signatures trace).tv = tv ∧
      (submitDispatch c tv transfer signatures trace).out =
        (match c.Execute (submitCall tv transfer signatures accountMeta) with
          | Except.error err => Outcome.returned (0, 0, some err)
          | Except.ok actionHash =>
            Outcome.returned (actionHash, (accountMeta.Nonce + 1) % 2 ^ 64, none)) ∧
      dispatchedCalls (submitDispatch c tv transfer signatures trace).trace =
        dispatchedCalls trace ++ [submitCall tv transfer signatures accountMeta] := by
  unfold submitDispatch
  simp only [hacc, hbal]
  by_cases hb : balance < tv.gasPrice * (tv.gasLimit : Int) <;>
    cases c.Execute (submitCall tv transfer signatures accountMeta) <;>
    simp [hb, dispatchedCalls, List.filterMap_append, Event.call?]

theorem NewTransferValidatorOnIoTeX_gas (env : Construction) (validatorContractAddr : Address)
    (tv : transferValidatorOnIoTeX) (err : Option Error)
    (h : NewTransferValidatorOnIoTeX env validatorContractAddr = (some tv, err)) :
    tv.gasLimit = 2000000 ∧ tv.gasPrice = Qev := by
  unfold NewTransferValidatorOnIoTeX at h
  simp only [FromBytes_Bytes] at h
  split at h
  · simp at h
  · split at h
    · simp at h
    · split at h
      · simp at h
      · simp only [Prod.mk.injEq, Option.some.injEq] at h
        rw [← h.1]
        exact ⟨rfl, rfl⟩

theorem NewTransferValidatorOnIoTeX_unpack_error (env : Construction)
    (validatorContractAddr : Address) (e : Error)
    (habi : env.validatorABI = none) (hlist : env.witnessList = Except.ok (Except.error e))
    (habi' : env.witnessContractABI = none) :
    NewTransferValidatorOnIoTeX env validatorContractAddr =
      (some
        { gasLimit := 2000000
          gasPrice := Qev
          relayerAddr := env.relayer
          validatorContractAddr := validatorContractAddr
          witnessListContract := 0
          witnesses := [] },
        none) := by
  simp [NewTransferValidatorOnIoTeX, FromBytes_Bytes, habi, hlist, habi']

theorem pageReads_eq (count : Int) :
    (max 0 ⌈(count : ℚ) / 10⌉).toNat = ((count + 9) / 10).toNat := by
  have h : ⌈(count : ℚ) / 10⌉ = (count + 9) / 10 := by
    rw [Int.ceil_eq_iff]
    have hdiv := Int.emod_add_ediv (count + 9) 10
    have hnonneg : (count + 9) % 10 ≥ 0 := Int.emod_nonneg _ (by norm_num)
    have hlt : (count + 9) % 10 < 10 := Int.emod_lt_of_pos _ (by norm_num)
    constructor
    · have hz : ((count + 9) / 10 : Int) * 10 < count + 10 := by omega
      have hq : (((count + 9) / 10 : Int) : ℚ) * 10 < count + 10 := by exact_mod_cast hz
      linarith
    · have hz : count ≤ ((count + 9) / 10 : Int) * 10 := by omega
      have hq : (count : ℚ) ≤ (((count + 9) / 10 : Int) : ℚ) * 10 := by exact_mod_cast hz
      linarith
  rw [h]
  omega

theorem pagesA_cases (offset : Int) (ret : ActiveItems)
    (h : (chainPaged 25 pagesA).getActiveItems offset 10 = Except.ok (Except.ok ret)) :
    ret = ⟨10, [1, 2, 3, 4, 5, 6, 7, 8, 9, 10]⟩ ∨
      ret = ⟨10, [11, 12, 13, 14, 15, 16, 17, 18, 19, 20]⟩ ∨
      ret = ⟨5, [21, 22, 23, 24, 25, 0, 0, 0, 0, 0]⟩ := by
  simp only [chainPaged, pagesA] at h
  split at h
  · simp only [Except.ok.injEq] at h
    exact Or.inl h.symm
  · split at h
    · simp only [Except.ok.injEq] at h
      exact Or.inr (Or.inl h.symm)
    · simp only [Except.ok.injEq] at h
      exact Or.inr (Or.inr h.symm)

theorem refresh_panicked_pages (c : Chain) (tv : transferValidatorOnIoTeX)
    (h : (refresh c tv).out = Outcome.panicked) :
    ∃ count trace, refreshPages c count (count.toNat + 1) 0 [] [Event.readCount] =
      Pages.panicked trace := by
  revert h
  unfold refresh
  cases c.count with
  | error err => simp
  | ok countData =>
    cases countData with
    | error err => simp
    | ok count =>
      dsimp only
      cases hp : refreshPages c count (count.toNat + 1) 0 [] [Event.readCount] with
      | failed err trace => simp
      | panicked trace => intro _; exact ⟨count, trace, hp⟩
      | outOfFuel trace => simp
      | done witnesses trace => simp [fillActive_eq]

/-! ## The quorum gate of Submit -/

/-- C1. When refresh succeeds, with N the size of the refreshed witness set and
V the number of input entries whose address is active in it, Submit goes on to
the account fetch if and only if 3 * V > 2 * N; when 3 * V ≤ 2 * N it returns
errInsufficientWitnesses with the zero hash and nonce 0, and its trace holds
neither an account fetch nor an Execute call. -/
theorem submit_quorum_gate (c : Chain) (tv : transferValidatorOnIoTeX) (transfer : Transfer)
    (witnesses : List Witness) (h : (refresh c tv).out = Outcome.returned none) :
    ((∃ e ∈ (Submit c tv transfer witnesses).trace, e.isGetAccount = true) ↔
        3 * (activeEntries (refresh c tv).tv witnesses).length >
          2 * mapLen (refresh c tv).tv.witnesses) ∧
      (3 * (activeEntries (refresh c tv).tv witnesses).length ≤
          2 * mapLen (refresh c tv).tv.witnesses →
        (Submit c tv transfer witnesses).out =
            Outcome.returned (0, 0, some Error.errInsufficientWitnesses) ∧
          ∀ e ∈ (Submit c tv transfer witnesses).trace,
            e.isGetAccount = false ∧ e.isExecute = false) := by
  rw [Submit_of_refresh_ok c tv transfer witnesses h]
  by_cases hq : (activeEntries (refresh c tv).tv witnesses).length * 3 ≤
      mapLen (refresh c tv).tv.witnesses * 2
  · rw [if_pos hq]
    refine ⟨⟨?_, fun hgt => absurd hq (by omega)⟩, fun _ => ⟨rfl, refresh_trace_quiet c tv⟩⟩
    rintro ⟨e, he, hacc⟩
    have := (refresh_trace_quiet c tv e he).1
    rw [this] at hacc
    exact absurd hacc (by simp)
  · rw [if_neg hq]
    refine ⟨⟨fun _ => by omega, fun _ => ?_⟩, fun hle => absurd hle (by omega)⟩
    exact ⟨_, submitDispatch_getAccount c _ transfer _ _, rfl⟩

/-- Witness of C1: with four active witnesses and two valid signatures, and
with three active witnesses and two valid signatures, Submit fails. -/
theorem submit_quorum_gate_witness :
    ((refresh chain4 tvA).out = Outcome.returned none ∧
      mapLen (refresh chain4 tvA).tv.witnesses = 4 ∧
      (activeEntries (refresh chain4 tvA).tv witnesses2).length = 2 ∧
      (Submit chain4 tvA transferA witnesses2).out =
          Outcome.returned (0, 0, some Error.errInsufficientWitnesses) ∧
      ∀ e ∈ (Submit chain4 tvA transferA witnesses2).trace,
          e.isGetAccount = false ∧ e.isExecute = false) ∧
    ((refresh chain3 tvA).out = Outcome.returned none ∧
      mapLen (refresh chain3 tvA).tv.witnesses = 3 ∧
      (activeEntries (refresh chain3 tvA).tv witnesses2).length = 2 ∧
      (Submit chain3 tvA transferA witnesses2).out =
          Outcome.returned (0, 0, some Error.errInsufficientWitnesses) ∧
      ∀ e ∈ (Submit chain3 tvA transferA witnesses2).trace,
          e.isGetAccount = false ∧ e.isExecute = false) :=
  ⟨⟨by decide, by decide, by decide,
      (submit_quorum_gate chain4 tvA transferA witnesses2 (by decide)).2 (by decide)⟩,
    ⟨by decide, by decide, by decide,
      (submit_quorum_gate chain3 tvA transferA witnesses2 (by decide)).2 (by decide)⟩⟩

/-- C2, as amended. Whenever Submit dispatches, the number V of signatures
counted as valid is at least floor(2 * N / 3) + 1, the least integer above two
thirds of the size N of the refreshed witness set. -/
theorem submit_minimum_signatures (c : Chain) (tv : transferValidatorOnIoTeX)
    (transfer : Transfer) (witnesses : List Witness) (signatures : List Nat) (V : Nat)
    (hV : collectSignatures (refresh c tv).tv witnesses [] 0 = Except.ok (signatures, V))
    (hd : ∃ e ∈ (Submit c tv transfer witnesses).trace, e.isExecute = true) :
    (V : ℤ) ≥ ⌊(2 * (mapLen (refresh c tv).tv.witnesses : ℚ)) / 3⌋ + 1 := by
  have hq := (Submit_dispatch_quorum c tv transfer witnesses hd).2
  rw [collectSignatures_eq] at hV
  simp only [Except.ok.injEq, Prod.mk.injEq, Nat.zero_add] at hV
  rw [hV.2] at hq
  have hlt : ⌊(2 * (mapLen (refresh c tv).tv.witnesses : ℚ)) / 3⌋ < (V : ℤ) := by
    rw [Int.floor_lt]
    have hq' : (2 * (mapLen (refresh c tv).tv.witnesses : ℚ)) < 3 * (V : ℚ) := by
      exact_mod_cast hq
    have h3 : (0 : ℚ) < 3 := by norm_num
    rw [Int.cast_natCast, div_lt_iff₀ h3]
    linarith
  omega

/-- Witness of C2 as amended: four active witnesses, three valid signatures. -/
theorem submit_minimum_signatures_witness :
    collectSignatures (refresh chain4 tvA).tv witnesses3 [] 0 =
        Except.ok ([11, 12, 12, 13], 3) ∧
      (∃ e ∈ (Submit chain4 tvA transferA witnesses3).trace, e.isExecute = true) ∧
      ((3 : ℕ) : ℤ) ≥ ⌊(2 * (mapLen (refresh chain4 tvA).tv.witnesses : ℚ)) / 3⌋ + 1 :=
  ⟨rfl, by decide,
    submit_minimum_signatures chain4 tvA transferA witnesses3 [11, 12, 12, 13] 3 rfl
      (by decide)⟩

/-- Counterexample to C2 as stated: with four active witnesses and three valid
signatures Submit dispatches, but 3 is below ceil(2 * 4 / 3 + 1) = 4. -/
theorem submit_minimum_signatures_ceil_fails :
    collectSignatures (refresh chain4 tvA).tv witnesses3 [] 0 =
        Except.ok ([11, 12, 12, 13], 3) ∧
      (∃ e ∈ (Submit chain4 tvA transferA witnesses3).trace, e.isExecute = true) ∧
      ¬ (((3 : ℕ) : ℤ) ≥ ⌈(2 * (mapLen (refresh chain4 tvA).tv.witnesses : ℚ)) / 3 + 1⌉) := by
  refine ⟨rfl, by decide, ?_⟩
  have hN : mapLen (refresh chain4 tvA).tv.witnesses = 4 := by decide
  rw [hN, ge_iff_le, not_le, Int.lt_ceil]
  norm_num

/-- C3, as amended. Whenever Submit dispatches and the input list names no
active witness more than once (inactive addresses may be repeated), the
distinct active witnesses that occur in the input list are strictly more than
two thirds of the refreshed witness set. -/
theorem submit_distinct_witnesses (c : Chain) (tv : transferValidatorOnIoTeX)
    (transfer : Transfer) (witnesses : List Witness)
    (hnodup : ((witnesses.filter
      (fun w => isActiveWitness (refresh c tv).tv w.addr)).map Witness.addr).Nodup)
    (hd : ∃ e ∈ (Submit c tv transfer witnesses).trace, e.isExecute = true) :
    3 * ((activeSet (refresh c tv).tv).filter
          (fun a => a ∈ witnesses.map Witness.addr)).card >
      2 * (activeSet (refresh c tv).tv).card := by
  obtain ⟨hok, hq⟩ := Submit_dispatch_quorum c tv transfer witnesses hd
  rw [activeSet_card _ (refresh_fresh c tv hok),
    ← activeEntries_length_nodup _ witnesses hnodup]
  exact hq

/-- Witness of C3 as amended: four active witnesses; the input names three of
them once each and the inactive address 7 twice, so the list of all its
addresses has a repetition while its active entries have none. -/
theorem submit_distinct_witnesses_witness :
    ¬ (witnessesInactiveTwice.map Witness.addr).Nodup ∧
      ((witnessesInactiveTwice.filter
        (fun w => isActiveWitness (refresh chain4 tvA).tv w.addr)).map Witness.addr).Nodup ∧
      (∃ e ∈ (Submit chain4 tvA transferA witnessesInactiveTwice).trace,
        e.isExecute = true) ∧
      3 * ((activeSet (refresh chain4 tvA).tv).filter
            (fun a => a ∈ witnessesInactiveTwice.map Witness.addr)).card >
        2 * (activeSet (refresh chain4 tvA).tv).card :=
  ⟨by decide, by decide, by decide,
    submit_distinct_witnesses chain4 tvA transferA witnessesInactiveTwice (by decide)
      (by decide)⟩

/-- Counterexample to C3 as stated: with three active witnesses and an input
list that names witness 1 three times, Submit dispatches although only one of
the three active witnesses has signed. -/
theorem submit_repeated_witness_dispatches :
    (∃ e ∈ (Submit chain3 tvA transferA witnessesRepeated).trace, e.isExecute = true) ∧
      (activeSet (refresh chain3 tvA).tv).card = 3 ∧
      ((activeSet (refresh chain3 tvA).tv).filter
          (fun a => a ∈ witnessesRepeated.map Witness.addr)).card = 1 ∧
      ¬ (3 * ((activeSet (refresh chain3 tvA).tv).filter
            (fun a => a ∈ witnessesRepeated.map Witness.addr)).card >
          2 * (activeSet (refresh chain3 tvA).tv).card) := by
  decide

/-! ## The account step of Submit -/

/-- C4, the code at the failing input. One active witness has signed, the
account fetch succeeds and the balance string "1e18" is not a base-10 integer:
Submit dispatches nothing and returns the zero hash and nonce 0 with a nil
error, because it wraps the nil error of the account fetch. -/
theorem submit_malformed_balance_nil_error :
    (refresh chainMalformed tvA).out = Outcome.returned none ∧
      3 * (activeEntries (refresh chainMalformed tvA).tv witnesses1).length >
        2 * mapLen (refresh chainMalformed tvA).tv.witnesses ∧
      chainMalformed.GetAccount tvA.relayerAddr =
        Except.ok { Nonce := 5, Balance := "1e18" } ∧
      SetString "1e18" = none ∧
      (Submit chainMalformed tvA transferA witnesses1).out = Outcome.returned (0, 0, none) ∧
      dispatchedCalls (Submit chainMalformed tvA transferA witnesses1).trace = [] :=
  ⟨by decide, by decide, rfl, by decide, by decide, by decide⟩

/-- C5, as amended. When refresh succeeds, 3 * V > 2 * N, the account fetch
returns nonce n with a parseable balance and the Execute call succeeds, Submit
dispatches exactly one call, with nonce (n + 1) mod 2 ^ 64, and returns the
hash of that dispatch, that nonce and a nil error; the nonce is n + 1 whenever
n is below 2 ^ 64 - 1. -/
theorem submit_nonce (c : Chain) (tv : transferValidatorOnIoTeX) (transfer : Transfer)
    (witnesses : List Witness) (n : Nat) (balanceString : String) (balance : Int)
    (actionHash : Hash)
    (hok : (refresh c tv).out = Outcome.returned none)
    (hq : 3 * (activeEntries (refresh c tv).tv witnesses).length >
      2 * mapLen (refresh c tv).tv.witnesses)
    (hacc : c.GetAccount tv.relayerAddr = Except.ok { Nonce := n, Balance := balanceString })
    (hbal : SetString balanceString = some balance)
    (hex : c.Execute (submitCall (refresh c tv).tv transfer
        (signatureBlob (activeEntries (refresh c tv).tv witnesses))
        { Nonce := n, Balance := balanceString }) = Except.ok actionHash) :
    (dispatchedCalls (Submit c tv transfer witnesses).trace).map ExecuteCall.nonce =
        [(n + 1) % 2 ^ 64] ∧
      (Submit c tv transfer witnesses).out =
        Outcome.returned (actionHash, (n + 1) % 2 ^ 64, none) ∧
      (n < 2 ^ 64 - 1 → (Submit c tv transfer witnesses).out =
        Outcome.returned (actionHash, n + 1, none)) := by
  have h := submitDispatch_ok c (refresh c tv).tv transfer
    (signatureBlob (activeEntries (refresh c tv).tv witnesses)) (refresh c tv).trace
    { Nonce := n, Balance := balanceString } balance actionHash
    (by rw [refresh_relayerAddr]; exact hacc) hbal hex
  rw [Submit_of_refresh_ok c tv transfer witnesses hok, if_neg (by omega)]
  refine ⟨?_, h.1, fun hn => ?_⟩
  · rw [h.2, refresh_dispatchedCalls]
    rfl
  · rw [h.1]
    have : (n + 1) % 2 ^ 64 = n + 1 := Nat.mod_eq_of_lt (by omega)
    simp only [this]

/-- Witness of C5 as amended: four active witnesses, three valid signatures,
account nonce 5; the call is dispatched with nonce 6. -/
theorem submit_nonce_witness :
    (dispatchedCalls (Submit chain4 tvA transferA witnesses3).trace).map ExecuteCall.nonce =
        [6] ∧
      (Submit chain4 tvA transferA witnesses3).out = Outcome.returned (77, 6, none) :=
  ⟨(submit_nonce chain4 tvA transferA witnesses3 5 "5000000000000000000"
      5000000000000000000 77 (by decide) (by decide) rfl (by decide) rfl).1,
    (submit_nonce chain4 tvA transferA witnesses3 5 "5000000000000000000"
      5000000000000000000 77 (by decide) (by decide) rfl (by decide) rfl).2.2 (by decide)⟩

/-- Counterexample to C5 as stated: with the account nonce at 2 ^ 64 - 1, the
largest `uint64`, every condition of the claim holds, yet the call is
dispatched with nonce 0 and Submit returns nonce 0, not n + 1 = 2 ^ 64. -/
theorem submit_nonce_wraps :
    (refresh chain4Max tvA).out = Outcome.returned none ∧
      3 * (activeEntries (refresh chain4Max tvA).tv witnesses3).length >
        2 * mapLen (refresh chain4Max tvA).tv.witnesses ∧
      chain4Max.GetAccount tvA.relayerAddr = Except.ok accountMax ∧
      SetString accountMax.Balance = some 5000000000000000000 ∧
      accountMax.Nonce + 1 = 18446744073709551616 ∧
      (dispatchedCalls (Submit chain4Max tvA transferA witnesses3).trace).map
        ExecuteCall.nonce = [0] ∧
      (Submit chain4Max tvA transferA witnesses3).out = Outcome.returned (77, 0, none) ∧
      (Submit chain4Max tvA transferA witnesses3).out ≠
        Outcome.returned (77, accountMax.Nonce + 1, none) :=
  ⟨by decide, by decide, rfl, by decide, by decide, by decide, by decide, by decide⟩

/-! ## The signature blob of Submit -/

/-- C6. Every call that Submit dispatches carries as its signatures argument
the concatenation, in input order, of the raw signatures of exactly the input
entries whose address is active in the refreshed witness set, and the counter
of valid signatures is the number of those entries. -/
theorem submit_signature_blob (c : Chain) (tv : transferValidatorOnIoTeX)
    (transfer : Transfer) (witnesses : List Witness) :
    ∀ call ∈ dispatchedCalls (Submit c tv transfer witnesses).trace,
      call.signatures =
          (witnesses.filter (fun w => isActiveWitness (refresh c tv).tv w.addr)).flatMap
            Witness.signature ∧
        collectSignatures (refresh c tv).tv witnesses [] 0 =
          Except.ok (call.signatures,
            (witnesses.filter (fun w => isActiveWitness (refresh c tv).tv w.addr)).length) := by
  intro call hcall
  have hsig : call.signatures = signatureBlob (activeEntries (refresh c tv).tv witnesses) := by
    by_cases hok : (refresh c tv).out = Outcome.returned none
    · rw [Submit_of_refresh_ok c tv transfer witnesses hok] at hcall
      split at hcall
      · rw [refresh_dispatchedCalls] at hcall
        exact absurd hcall (List.not_mem_nil _)
      · rcases submitDispatch_calls c (refresh c tv).tv transfer
          (signatureBlob (activeEntries (refresh c tv).tv witnesses)) (refresh c tv).trace
          with h | ⟨accountMeta, h⟩
        · rw [h, refresh_dispatchedCalls] at hcall
          exact absurd hcall (List.not_mem_nil _)
        · rw [h, refresh_dispatchedCalls, List.nil_append, List.mem_singleton] at hcall
          rw [hcall]
          rfl
    · rw [Submit_trace_of_refresh_not_ok c tv transfer witnesses hok,
        refresh_dispatchedCalls] at hcall
      exact absurd hcall (List.not_mem_nil _)
  refine ⟨hsig, ?_⟩
  rw [collectSignatures_eq, hsig]
  simp [activeEntries]

/-- Witness of C6: four active witnesses; the input names witnesses 1, 2, 3
and the inactive address 7, whose bytes are left out. -/
theorem submit_signature_blob_witness :
    dispatchedCalls (Submit chain4 tvA transferA witnesses3).trace = [callA] ∧
      callA.signatures = [11, 12, 12, 13] ∧
      (callA.signatures =
          (witnesses3.filter (fun w => isActiveWitness (refresh chain4 tvA).tv w.addr)).flatMap
            Witness.signature ∧
        collectSignatures (refresh chain4 tvA).tv witnesses3 [] 0 =
          Except.ok (callA.signatures,
            (witnesses3.filter
              (fun w => isActiveWitness (refresh chain4 tvA).tv w.addr)).length)) :=
  ⟨by decide, rfl, submit_signature_blob chain4 tvA transferA witnesses3 callA (by decide)⟩

/-- C7. Submit on a list and on that list with its inactive entries removed
are the same run (same result, same trace and so same dispatched call, same
final state); more generally two input lists with the same active entries in
the same order give the same run, so inactive entries put in anywhere change
nothing. -/
theorem submit_ignores_inactive (c : Chain) (tv : transferValidatorOnIoTeX)
    (transfer : Transfer) (witnesses : List Witness) :
    Submit c tv transfer
        (witnesses.filter (fun w => isActiveWitness (refresh c tv).tv w.addr)) =
      Submit c tv transfer witnesses ∧
    ∀ witnesses' : List Witness,
      witnesses'.filter (fun w => isActiveWitness (refresh c tv).tv w.addr) =
        witnesses.filter (fun w => isActiveWitness (refresh c tv).tv w.addr) →
      Submit c tv transfer witnesses' = Submit c tv transfer witnesses :=
  ⟨Submit_congr c tv transfer witnesses _ (activeEntries_idem _ witnesses),
    fun witnesses' h => Submit_congr c tv transfer witnesses witnesses' h⟩

/-- Witness of C7: a list with four inactive entries put in gives the run of
the list without them. -/
theorem submit_ignores_inactive_witness :
    witnesses3Padded.filter (fun w => isActiveWitness (refresh chain4 tvA).tv w.addr) =
        witnesses3.filter (fun w => isActiveWitness (refresh chain4 tvA).tv w.addr) ∧
      Submit chain4 tvA transferA witnesses3Padded = Submit chain4 tvA transferA witnesses3 :=
  ⟨by decide,
    (submit_ignores_inactive chain4 tvA transferA witnesses3).2 witnesses3Padded (by decide)⟩

/-! ## Check -/

/-- C8. When the account fetch and the settles read with its decoding succeed
and the settlement height is greater than zero, Check returns Settled with a
nil error, and the run is the same whatever the receipt query would answer. -/
theorem check_settled_first (c : Chain) (tv : transferValidatorOnIoTeX) (transfer : Transfer)
    (accountMeta : AccountMeta) (settleHeight : Int)
    (hacc : c.GetAccount tv.relayerAddr = Except.ok accountMeta)
    (hsettles : c.settles transfer.id = Except.ok (Except.ok settleHeight))
    (hpos : settleHeight > 0) :
    (Check c tv transfer).status = StatusOnChainType.StatusOnChainSettled ∧
      (Check c tv transfer).err = none ∧
      ∀ receipts : GetReceiptByActionRequest →
          Except Error (Option GetReceiptByActionResponse),
        Check { c with GetReceiptByAction := receipts } tv transfer = Check c tv transfer := by
  refine ⟨?_, ?_, fun receipts => ?_⟩ <;> simp [Check, hacc, hsettles, hpos]

/-- Witness of C8: settled at height 12 while a receipt exists and the
transfer's nonce 7 is above the account nonce 5. -/
theorem check_settled_first_witness :
    (Check chainSettled tvA transferA).status = StatusOnChainType.StatusOnChainSettled ∧
      (Check chainSettled tvA transferA).err = none :=
  ⟨(check_settled_first chainSettled tvA transferA accountA 12 rfl rfl (by decide)).1,
    (check_settled_first chainSettled tvA transferA accountA 12 rfl rfl (by decide)).2.1⟩

/-- C9. When the account fetch and the settles read succeed, the settlement
height is not greater than zero and the receipt query returns a receipt, Check
returns Rejected with a nil error, whatever the status of the receipt and
whatever the nonces. -/
theorem check_receipt_rejected (c : Chain) (tv : transferValidatorOnIoTeX)
    (transfer : Transfer) (accountMeta : AccountMeta) (settleHeight : Int)
    (receipt : GetReceiptByActionResponse)
    (hacc : c.GetAccount tv.relayerAddr = Except.ok accountMeta)
    (hsettles : c.settles transfer.id = Except.ok (Except.ok settleHeight))
    (hnot : ¬ settleHeight > 0)
    (hreceipt : c.GetReceiptByAction { ActionHash := "" } = Except.ok (some receipt)) :
    (Check c tv transfer).status = StatusOnChainType.StatusOnChainRejected ∧
      (Check c tv transfer).err = none := by
  constructor <;> simp [Check, hacc, hsettles, hnot, hreceipt]

/-- Witness of C9: a receipt of status 1 and a receipt of status 0 both give
Rejected, for a transfer nonce above and one not above the account nonce. -/
theorem check_receipt_rejected_witness :
    ((Check (chainReceipt 1) tvA transferA).status = StatusOnChainType.StatusOnChainRejected ∧
        (Check (chainReceipt 1) tvA transferA).err = none) ∧
      ((Check (chainReceipt 0) tvA transferB).status =
          StatusOnChainType.StatusOnChainRejected ∧
        (Check (chainReceipt 0) tvA transferB).err = none) :=
  ⟨check_receipt_rejected (chainReceipt 1) tvA transferA accountA 0 ⟨1⟩ rfl rfl (by decide) rfl,
    check_receipt_rejected (chainReceipt 0) tvA transferB accountA 0 ⟨0⟩ rfl rfl (by decide) rfl⟩

/-- C10. When the account fetch, the settles read and the receipt query
succeed, the settlement height is not greater than zero and no receipt is
found, Check returns NonceOverwritten with a nil error if the transfer's nonce
is at most the account nonce, and NotConfirmed with a nil error otherwise. -/
theorem check_nonce_classification (c : Chain) (tv : transferValidatorOnIoTeX)
    (transfer : Transfer) (accountMeta : AccountMeta) (settleHeight : Int)
    (hacc : c.GetAccount tv.relayerAddr = Except.ok accountMeta)
    (hsettles : c.settles transfer.id = Except.ok (Except.ok settleHeight))
    (hnot : ¬ settleHeight > 0)
    (hreceipt : c.GetReceiptByAction { ActionHash := "" } = Except.ok none) :
    (Check c tv transfer).err = none ∧
      (transfer.nonce ≤ accountMeta.Nonce →
        (Check c tv transfer).status = StatusOnChainType.StatusOnChainNonceOverwritten) ∧
      (¬ transfer.nonce ≤ accountMeta.Nonce →
        (Check c tv transfer).status = StatusOnChainType.StatusOnChainNotConfirmed) := by
  refine ⟨?_, fun hle => ?_, fun hgt => ?_⟩
  · by_cases hle : transfer.nonce ≤ accountMeta.Nonce <;>
      simp [Check, hacc, hsettles, hnot, hreceipt, hle]
  · simp [Check, hacc, hsettles, hnot, hreceipt, hle]
  · simp [Check, hacc, hsettles, hnot, hreceipt, hgt]

/-- Witness of C10: with account nonce 5, the transfer of nonce 5 is
NonceOverwritten and the transfer of nonce 7 is NotConfirmed. -/
theorem check_nonce_classification_witness :
    (Check chain4 tvA transferB).status = StatusOnChainType.StatusOnChainNonceOverwritten ∧
      (Check chain4 tvA transferA).status = StatusOnChainType.StatusOnChainNotConfirmed ∧
      (Check chain4 tvA transferB).err = none ∧ (Check chain4 tvA transferA).err = none :=
  ⟨(check_nonce_classification chain4 tvA transferB accountA 0 rfl rfl (by decide) rfl).2.1
      (by decide),
    (check_nonce_classification chain4 tvA transferA accountA 0 rfl rfl (by decide) rfl).2.2
      (by decide),
    (check_nonce_classification chain4 tvA transferB accountA 0 rfl rfl (by decide) rfl).1,
    (check_nonce_classification chain4 tvA transferA accountA 0 rfl rfl (by decide) rfl).1⟩

theorem Check_receipt_request (c : Chain) (tv : transferValidatorOnIoTeX) (transfer : Transfer)
    (request : GetReceiptByActionRequest)
    (h : Event.getReceiptByAction request ∈ (Check c tv transfer).trace) :
    request = { ActionHash := "" } := by
  unfold Check at h
  dsimp only at h
  split at h
  · simp at h
  · split at h
    · simp at h
    · split at h
      · simp at h
      · split at h
        · simp at h
        · split at h
          · simpa using h
          · split at h
            · simpa using h
            · split at h <;> simpa using h

/-- C11. Check returns Unknown exactly when it returns a non-nil error; a
failure of the account fetch, of the settles read or of its decoding gives
Unknown together with that same error, so every other status comes with a nil
error. -/
theorem check_never_guesses (c : Chain) (tv : transferValidatorOnIoTeX)
    (transfer : Transfer) :
    ((Check c tv transfer).status = StatusOnChainType.StatusOnChainUnknown ↔
        (Check c tv transfer).err ≠ none) ∧
      (∀ e, c.GetAccount tv.relayerAddr = Except.error e →
        (Check c tv transfer).status = StatusOnChainType.StatusOnChainUnknown ∧
          (Check c tv transfer).err = some e) ∧
      (∀ accountMeta e, c.GetAccount tv.relayerAddr = Except.ok accountMeta →
        c.settles transfer.id = Except.error e →
        (Check c tv transfer).status = StatusOnChainType.StatusOnChainUnknown ∧
          (Check c tv transfer).err = some e) ∧
      (∀ accountMeta e, c.GetAccount tv.relayerAddr = Except.ok accountMeta →
        c.settles transfer.id = Except.ok (Except.error e) →
        (Check c tv transfer).status = StatusOnChainType.StatusOnChainUnknown ∧
          (Check c tv transfer).err = some e) := by
  refine ⟨?_, ?_, ?_, ?_⟩
  · unfold Check
    dsimp only
    split
    · simp
    · split
      · simp
      · split
        · simp
        · split
          · simp
          · split
            · simp
            · split
              · simp
              · split <;> simp
  · intro e hacc
    simp [Check, hacc]
  · intro accountMeta e hacc hsettles
    simp [Check, hacc, hsettles]
  · intro accountMeta e hacc hsettles
    simp [Check, hacc, hsettles]

/-- Witness of C11: the account fetch, the settles read and its decoding fail
in turn; each time Check returns Unknown with the error of the failure. -/
theorem check_never_guesses_witness :
    ((Check chainAccountDown tvA transferA).status = StatusOnChainType.StatusOnChainUnknown ∧
        (Check chainAccountDown tvA transferA).err =
          some (Error.remote "account unavailable")) ∧
      ((Check chainSettlesDown tvA transferA).status =
          StatusOnChainType.StatusOnChainUnknown ∧
        (Check chainSettlesDown tvA transferA).err =
          some (Error.remote "settles unavailable")) ∧
      ((Check chainSettlesGarbled tvA transferA).status =
          StatusOnChainType.StatusOnChainUnknown ∧
        (Check chainSettlesGarbled tvA transferA).err =
          some (Error.remote "settles garbled")) :=
  ⟨(check_never_guesses chainAccountDown tvA transferA).2.1 _ rfl,
    (check_never_guesses chainSettlesDown tvA transferA).2.2.1 accountA _ rfl rfl,
    (check_never_guesses chainSettlesGarbled tvA transferA).2.2.2 accountA _ rfl rfl⟩

/-- C12, the code at the failing input. The transfers `transferA` and
`transferC` have different identifiers, and for both Check reaches the receipt
query; the request it sends is the empty `GetReceiptByActionRequest` both
times, so the two requests do not differ. -/
theorem check_receipt_request_empty :
    transferA.id ≠ transferC.id ∧
      (Check chain4 tvA transferA).trace =
        [Event.getAccount 9, Event.readSettles [1],
          Event.getReceiptByAction { ActionHash := "" }] ∧
      (Check chain4 tvA transferC).trace =
        [Event.getAccount 9, Event.readSettles [2],
          Event.getReceiptByAction { ActionHash := "" }] := by
  decide

/-! ## refresh -/

/-- C13. A failing count read or count decode makes refresh return that
error, and so does the first failing page read or page decode after accepted
pages; whenever refresh returns an error, that error is the one of the count
read, of its decode, of a page read or of a page decode, the installed witness
set is unchanged, isActiveWitness answers as before for every address, and
Submit returns that error with the zero hash and nonce 0, leaves the state
unchanged and dispatches nothing. -/
theorem refresh_failure_atomic (c : Chain) (tv : transferValidatorOnIoTeX) :
    (∀ e, c.count = Except.error e → (refresh c tv).out = Outcome.returned (some e)) ∧
    (∀ e, c.count = Except.ok (Except.error e) →
      (refresh c tv).out = Outcome.returned (some e)) ∧
    (∀ (count : Int) (k : Nat) (e : Error), c.count = Except.ok (Except.ok count) →
      10 * (k : Int) < count →
      (∀ j : Nat, j < k → ∃ ret items,
        c.getActiveItems (10 * (j : Int)) 10 = Except.ok (Except.ok ret) ∧
          sliceTo ret.Items (Int64 ret.Count) = some items) →
      (c.getActiveItems (10 * (k : Int)) 10 = Except.error e ∨
        c.getActiveItems (10 * (k : Int)) 10 = Except.ok (Except.error e)) →
      (refresh c tv).out = Outcome.returned (some e)) ∧
    (∀ e, (refresh c tv).out = Outcome.returned (some e) →
      (c.count = Except.error e ∨ c.count = Except.ok (Except.error e) ∨
        ∃ k : Nat, c.getActiveItems (10 * (k : Int)) 10 = Except.error e ∨
          c.getActiveItems (10 * (k : Int)) 10 = Except.ok (Except.error e)) ∧
      (refresh c tv).tv = tv ∧
      (∀ a, isActiveWitness (refresh c tv).tv a = isActiveWitness tv a) ∧
      ∀ (transfer : Transfer) (witnesses : List Witness),
        (Submit c tv transfer witnesses).out = Outcome.returned (0, 0, some e) ∧
          (Submit c tv transfer witnesses).tv = tv ∧
          dispatchedCalls (Submit c tv transfer witnesses).trace = []) := by
  refine ⟨fun e h => ?_, fun e h => ?_, fun count k e hcount hk hgood hfail => ?_,
    fun e h => ?_⟩
  · simp [refresh, h]
  · simp [refresh, h]
  · obtain ⟨trace', hpages⟩ := refreshPages_fails_at c count e k (count.toNat + 1) 0 []
      [Event.readCount] (by omega) (by simpa using hgood) (by simpa using hk)
      (by simpa using hfail)
    unfold refresh
    rw [hcount]
    dsimp only
    rw [hpages]
  · have htv : (refresh c tv).tv = tv := refresh_tv_of_not_ok c tv (by rw [h]; simp)
    refine ⟨refresh_failed_source c tv e h, htv, fun a => by rw [htv], fun transfer witnesses => ?_⟩
    rw [Submit_of_refresh_failed c tv transfer witnesses e h]
    exact ⟨rfl, htv, refresh_dispatchedCalls c tv⟩

/-- Witness of C13: with witnesses 1 and 2 installed, the count read fails, and
on another chain the read of the second page fails after an accepted first
page; both times the installed set stays and Submit returns the error. -/
theorem refresh_failure_atomic_witness :
    ((refresh chainCountDown tvInstalled).out =
        Outcome.returned (some (Error.remote "count unavailable")) ∧
      (refresh chainCountDown tvInstalled).tv = tvInstalled ∧
      (Submit chainCountDown tvInstalled transferA witnesses3).out =
        Outcome.returned (0, 0, some (Error.remote "count unavailable"))) ∧
    ((refresh (chainPaged 25 pagesDown) tvInstalled).out =
        Outcome.returned (some (Error.remote "page unavailable")) ∧
      (refresh (chainPaged 25 pagesDown) tvInstalled).tv = tvInstalled ∧
      dispatchedCalls (Submit (chainPaged 25 pagesDown) tvInstalled transferA
        witnesses3).trace = []) :=
  ⟨⟨(refresh_failure_atomic chainCountDown tvInstalled).1 _ rfl,
      ((refresh_failure_atomic chainCountDown tvInstalled).2.2.2
        (Error.remote "count unavailable") (by decide)).2.1,
      (((refresh_failure_atomic chainCountDown tvInstalled).2.2.2
        (Error.remote "count unavailable") (by decide)).2.2.2 transferA witnesses3).1⟩,
    ⟨(refresh_failure_atomic (chainPaged 25 pagesDown) tvInstalled).2.2.1 25 1 _ rfl
        (by decide)
        (fun j hj => ⟨⟨10, [1, 2, 3, 4, 5, 6, 7, 8, 9, 10]⟩, [1, 2, 3, 4, 5, 6, 7, 8, 9, 10],
          by
            have hj0 : j = 0 := by omega
            subst hj0
            exact ⟨rfl, by decide⟩⟩)
        (Or.inl rfl),
      ((refresh_failure_atomic (chainPaged 25 pagesDown) tvInstalled).2.2.2
        (Error.remote "page unavailable") (by decide)).2.1,
      (((refresh_failure_atomic (chainPaged 25 pagesDown) tvInstalled).2.2.2
        (Error.remote "page unavailable") (by decide)).2.2.2 transferA witnesses3).2.2⟩⟩

/-- C14. When refresh succeeds, a second refresh on the same registry succeeds
too and leaves the state as the first left it; and from any other previously
installed state refresh succeeds as well and installs the same witness set. -/
theorem refresh_idempotent (c : Chain) (tv : transferValidatorOnIoTeX)
    (h : (refresh c tv).out = Outcome.returned none) :
    (refresh c (refresh c tv).tv).out = Outcome.returned none ∧
      (refresh c (refresh c tv).tv).tv = (refresh c tv).tv ∧
      ∀ tv' : transferValidatorOnIoTeX,
        (refresh c tv').out = Outcome.returned none ∧
          (refresh c tv').tv.witnesses = (refresh c tv).tv.witnesses := by
  have hind : ∀ tv' : transferValidatorOnIoTeX,
      (refresh c tv').out = Outcome.returned none ∧
        (refresh c tv').tv.witnesses = (refresh c tv).tv.witnesses := by
    intro tv'
    obtain ⟨hout, _, hw⟩ := refresh_indep c tv tv'
    rw [if_pos h] at hw
    exact ⟨hout.trans h, hw⟩
  refine ⟨(hind _).1, ?_, hind⟩
  rw [refresh_tv c (refresh c tv).tv, (hind (refresh c tv).tv).2]

/-- Witness of C14: on the 25-witness registry, refresh from the fresh
validator and from the validator with witnesses 1 and 2 installed. -/
theorem refresh_idempotent_witness :
    (refresh (chainPaged 25 pagesA) (refresh (chainPaged 25 pagesA) tvA).tv).tv =
        (refresh (chainPaged 25 pagesA) tvA).tv ∧
      (refresh (chainPaged 25 pagesA) tvInstalled).tv.witnesses =
        (refresh (chainPaged 25 pagesA) tvA).tv.witnesses :=
  ⟨(refresh_idempotent (chainPaged 25 pagesA) tvA (by decide)).2.1,
    ((refresh_idempotent (chainPaged 25 pagesA) tvA (by decide)).2.2 tvInstalled).2⟩

/-- C15. When refresh succeeds and every page at an offset 10 * k below the
count returns a count c_k with 0 ≤ c_k ≤ len(items_k) (the length of a Go
slice being an `int`, below 2 ^ 63), an address is active afterwards exactly
when it is among the first c_k entries of items_k for some such page; every
other address, entries beyond the returned count included, is inactive. -/
theorem refresh_content (c : Chain) (tv : transferValidatorOnIoTeX) (count : Int)
    (hok : (refresh c tv).out = Outcome.returned none)
    (hcount : c.count = Except.ok (Except.ok count))
    (hpages : ∀ (k : Nat) (ret : ActiveItems), 10 * (k : Int) < count →
      c.getActiveItems (10 * (k : Int)) 10 = Except.ok (Except.ok ret) →
      0 ≤ ret.Count ∧ ret.Count ≤ (ret.Items.length : Int) ∧
        (ret.Items.length : Int) < 2 ^ 63) :
    ∀ a : Address,
      (isActiveWitness (refresh c tv).tv a = true ↔
        ∃ (k : Nat) (ret : ActiveItems), 10 * (k : Int) < count ∧
          c.getActiveItems (10 * (k : Int)) 10 = Except.ok (Except.ok ret) ∧
          a ∈ ret.Items.take ret.Count.toNat) ∧
      ((¬ ∃ (k : Nat) (ret : ActiveItems), 10 * (k : Int) < count ∧
          c.getActiveItems (10 * (k : Int)) 10 = Except.ok (Except.ok ret) ∧
          a ∈ ret.Items.take ret.Count.toNat) →
        isActiveWitness (refresh c tv).tv a = false) := by
  intro a
  have hiff : isActiveWitness (refresh c tv).tv a = true ↔
      ∃ (k : Nat) (ret : ActiveItems), 10 * (k : Int) < count ∧
        c.getActiveItems (10 * (k : Int)) 10 = Except.ok (Except.ok ret) ∧
        a ∈ ret.Items.take ret.Count.toNat := by
    obtain ⟨witnesses, trace, hdone, _, hw⟩ := refresh_ok_pages c tv count hok hcount
    rw [isActiveWitness_fresh _ a (refresh_fresh c tv hok), hw, foldl_mapSet_keys,
      refreshPages_done_mem c count _ _ _ _ _ _ hdone a]
    simp only [List.map_nil, List.not_mem_nil, false_or, zero_add]
    constructor
    · rintro ⟨k, ret, items, hk, hpage, hslice, ha⟩
      obtain ⟨h0, hlen, hfit⟩ := hpages k ret hk hpage
      rw [sliceTo_in_range ret.Items ret.Count h0 hlen (by omega)] at hslice
      simp only [Option.some.injEq] at hslice
      exact ⟨k, ret, hk, hpage, hslice ▸ ha⟩
    · rintro ⟨k, ret, hk, hpage, ha⟩
      obtain ⟨h0, hlen, hfit⟩ := hpages k ret hk hpage
      exact ⟨k, ret, _, hk, hpage, sliceTo_in_range ret.Items ret.Count h0 hlen (by omega), ha⟩
  refine ⟨hiff, fun hn => ?_⟩
  cases hact : isActiveWitness (refresh c tv).tv a with
  | false => rfl
  | true => exact absurd (hiff.mp hact) hn

/-- Witness of C15: on the 25-witness registry the address 25, fifth entry of
the last page, is active and the address 0, which fills that page beyond its
returned count 5, is not. -/
theorem refresh_content_witness :
    isActiveWitness (refresh (chainPaged 25 pagesA) tvA).tv 25 = true ∧
      isActiveWitness (refresh (chainPaged 25 pagesA) tvA).tv 0 = false ∧
      ((isActiveWitness (refresh (chainPaged 25 pagesA) tvA).tv 25 = true ↔
        ∃ (k : Nat) (ret : ActiveItems), 10 * (k : Int) < 25 ∧
          (chainPaged 25 pagesA).getActiveItems (10 * (k : Int)) 10 =
            Except.ok (Except.ok ret) ∧
          (25 : Address) ∈ ret.Items.take ret.Count.toNat)) :=
  ⟨by decide, by decide,
    (refresh_content (chainPaged 25 pagesA) tvA 25 (by decide) rfl
      (fun k ret _ hpage => by
        have hret : ret = ⟨10, [1, 2, 3, 4, 5, 6, 7, 8, 9, 10]⟩ ∨
            ret = ⟨10, [11, 12, 13, 14, 15, 16, 17, 18, 19, 20]⟩ ∨
            ret = ⟨5, [21, 22, 23, 24, 25, 0, 0, 0, 0, 0]⟩ := by
          simp only [chainPaged, pagesA] at hpage
          split at hpage
          · simp only [Except.ok.injEq] at hpage
            exact Or.inl hpage.symm
          · split at hpage
            · simp only [Except.ok.injEq] at hpage
              exact Or.inr (Or.inl hpage.symm)
            · simp only [Except.ok.injEq] at hpage
              exact Or.inr (Or.inr hpage.symm)
        rcases hret with h | h | h <;> subst h <;> decide) 25).1⟩

/-- C16. When refresh succeeds and installs an empty witness set, Submit
returns errInsufficientWitnesses with the zero hash and nonce 0 for every
transfer and every input list, fetches no account and dispatches nothing. -/
theorem submit_empty_set (c : Chain) (tv : transferValidatorOnIoTeX) (transfer : Transfer)
    (witnesses : List Witness) (hok : (refresh c tv).out = Outcome.returned none)
    (hN : mapLen (refresh c tv).tv.witnesses = 0) :
    (Submit c tv transfer witnesses).out =
        Outcome.returned (0, 0, some Error.errInsufficientWitnesses) ∧
      dispatchedCalls (Submit c tv transfer witnesses).trace = [] ∧
      ∀ e ∈ (Submit c tv transfer witnesses).trace, e.isGetAccount = false := by
  have hempty : (refresh c tv).tv.witnesses = [] := List.length_eq_zero.mp hN
  have hV : activeEntries (refresh c tv).tv witnesses = [] := by
    unfold activeEntries
    rw [List.filter_eq_nil_iff]
    intro w _
    simp [isActiveWitness, hempty, mapGet]
  rw [Submit_of_refresh_ok c tv transfer witnesses hok, if_pos (by rw [hV, hN]; simp)]
  exact ⟨rfl, refresh_dispatchedCalls c tv, fun e he => (refresh_trace_quiet c tv e he).1⟩

/-- Witness of C16: an empty registry and a list of four signatures. -/
theorem submit_empty_set_witness :
    mapLen (refresh chain0 tvInstalled).tv.witnesses = 0 ∧
      (Submit chain0 tvInstalled transferA witnesses3).out =
        Outcome.returned (0, 0, some Error.errInsufficientWitnesses) ∧
      dispatchedCalls (Submit chain0 tvInstalled transferA witnesses3).trace = [] :=
  ⟨by decide,
    (submit_empty_set chain0 tvInstalled transferA witnesses3 (by decide) (by decide)).1,
    (submit_empty_set chain0 tvInstalled transferA witnesses3 (by decide) (by decide)).2.1⟩

/-! ## Balance, construction, pagination -/

/-- C17. Two runs of Submit that differ only in the parseable balance string
of the account return the same triple, dispatch the same contract calls and
end in the same state; every dispatched call carries the gas price and the gas
limit of the validator, 2,000,000 for a validator that the constructor built;
and once refresh has succeeded and the quorum is met,
the call is dispatched whatever the parsed balance is, zero and values below
gasPrice * gasLimit included. -/
theorem submit_balance_independent (c : Chain) (tv : transferValidatorOnIoTeX)
    (transfer : Transfer) (witnesses : List Witness) (n : Nat)
    (balance1 balance2 : String) (b1 b2 : Int)
    (account1 account2 : Address → Except Error AccountMeta)
    (hacc1 : account1 tv.relayerAddr = Except.ok { Nonce := n, Balance := balance1 })
    (hacc2 : account2 tv.relayerAddr = Except.ok { Nonce := n, Balance := balance2 })
    (hbal1 : SetString balance1 = some b1) (hbal2 : SetString balance2 = some b2) :
    (Submit { c with GetAccount := account1 } tv transfer witnesses).out =
        (Submit { c with GetAccount := account2 } tv transfer witnesses).out ∧
      dispatchedCalls (Submit { c with GetAccount := account1 } tv transfer witnesses).trace =
        dispatchedCalls
          (Submit { c with GetAccount := account2 } tv transfer witnesses).trace ∧
      (Submit { c with GetAccount := account1 } tv transfer witnesses).tv =
        (Submit { c with GetAccount := account2 } tv transfer witnesses).tv ∧
      (∀ call ∈ dispatchedCalls
          (Submit { c with GetAccount := account1 } tv transfer witnesses).trace,
        call.gasLimit = tv.gasLimit ∧ call.gasPrice = tv.gasPrice ∧
          ∀ (env : Construction) (address : Address) (err : Option Error),
            NewTransferValidatorOnIoTeX env address = (some tv, err) →
            call.gasLimit = 2000000) ∧
      ((refresh c tv).out = Outcome.returned none →
        3 * (activeEntries (refresh c tv).tv witnesses).length >
          2 * mapLen (refresh c tv).tv.witnesses →
        dispatchedCalls (Submit { c with GetAccount := account1 } tv transfer witnesses).trace =
          [submitCall (refresh c tv).tv transfer
            (signatureBlob (activeEntries (refresh c tv).tv witnesses))
            { Nonce := n, Balance := balance1 }]) := by
  have hr1 : refresh { c with GetAccount := account1 } tv = refresh c tv :=
    refresh_congr c _ tv rfl rfl
  have hr2 : refresh { c with GetAccount := account2 } tv = refresh c tv :=
    refresh_congr c _ tv rfl rfl
  by_cases hok : (refresh c tv).out = Outcome.returned none
  · have hok1 : (refresh { c with GetAccount := account1 } tv).out = Outcome.returned none := by
      rw [hr1]; exact hok
    have hok2 : (refresh { c with GetAccount := account2 } tv).out = Outcome.returned none := by
      rw [hr2]; exact hok
    rw [Submit_of_refresh_ok _ tv transfer witnesses hok1,
      Submit_of_refresh_ok _ tv transfer witnesses hok2, hr1, hr2]
    by_cases hq : (activeEntries (refresh c tv).tv witnesses).length * 3 ≤
        mapLen (refresh c tv).tv.witnesses * 2
    · rw [if_pos hq, if_pos hq]
      refine ⟨rfl, rfl, rfl, ?_, fun _ hgt => absurd hq (by omega)⟩
      intro call hcall
      rw [refresh_dispatchedCalls] at hcall
      exact absurd hcall (List.not_mem_nil _)
    · rw [if_neg hq, if_neg hq]
      obtain ⟨htv1, hout1, hcalls1⟩ := submitDispatch_parsed { c with GetAccount := account1 }
        (refresh c tv).tv transfer (signatureBlob (activeEntries (refresh c tv).tv witnesses))
        (refresh c tv).trace { Nonce := n, Balance := balance1 } b1
        (by rw [refresh_relayerAddr]; exact hacc1) hbal1
      obtain ⟨htv2, hout2, hcalls2⟩ := submitDispatch_parsed { c with GetAccount := account2 }
        (refresh c tv).tv transfer (signatureBlob (activeEntries (refresh c tv).tv witnesses))
        (refresh c tv).trace { Nonce := n, Balance := balance2 } b2
        (by rw [refresh_relayerAddr]; exact hacc2) hbal2
      rw [refresh_dispatchedCalls, List.nil_append] at hcalls1 hcalls2
      refine ⟨?_, ?_, ?_, ?_, fun _ _ => hcalls1⟩
      · rw [hout1, hout2]; rfl
      · rw [hcalls1, hcalls2]; rfl
      · rw [htv1, htv2]
      · intro call hcall
        rw [hcalls1, List.mem_singleton] at hcall
        rw [hcall, refresh_tv c tv]
        exact ⟨rfl, rfl, fun env address err h =>
          (NewTransferValidatorOnIoTeX_gas env address tv err h).1⟩
  · have h1 := Submit_out_of_refresh_not_ok c { c with GetAccount := account1 } tv transfer
      witnesses hr1 hok
    have h2 := Submit_out_of_refresh_not_ok c { c with GetAccount := account2 } tv transfer
      witnesses hr2 hok
    rw [h1, h2]
    refine ⟨rfl, rfl, rfl, ?_, fun h => absurd h hok⟩
    intro call hcall
    rw [Submit_trace_of_refresh_not_ok c tv transfer witnesses hok,
      refresh_dispatchedCalls] at hcall
    exact absurd hcall (List.not_mem_nil _)

/-- Witness of C17: four active witnesses, three valid signatures; with a
balance of zero and with a balance that covers the gas the same call, of gas
limit 2,000,000 and nonce 6, is dispatched and the same triple is returned. -/
theorem submit_balance_independent_witness :
    (Submit { chain4 with GetAccount := accountWith "0" } tvA transferA witnesses3).out =
        (Submit { chain4 with GetAccount := accountWith "5000000000000000000" } tvA transferA
          witnesses3).out ∧
      dispatchedCalls
          (Submit { chain4 with GetAccount := accountWith "0" } tvA transferA
            witnesses3).trace = [callA] ∧
      dispatchedCalls
          (Submit { chain4 with GetAccount := accountWith "5000000000000000000" } tvA
            transferA witnesses3).trace = [callA] ∧
      callA.gasLimit = 2000000 :=
  ⟨(submit_balance_independent chain4 tvA transferA witnesses3 5 "0" "5000000000000000000"
      0 5000000000000000000 (accountWith "0") (accountWith "5000000000000000000")
      rfl rfl (by decide) (by decide)).1,
    by decide, by decide, rfl⟩

/-- C18, the code at the failing input. The read of `witnessList` succeeds and
the unpacking of its raw result fails, and both ABI constants parse: the
constructor returns a validator bound to the zero address as witness-list
contract, with a nil error. -/
theorem new_validator_swallows_unpack_error :
    constructionGarbled.witnessList =
        Except.ok (Except.error (Error.remote "unpack failed")) ∧
      NewTransferValidatorOnIoTeX constructionGarbled 8 =
        (some
          { gasLimit := 2000000
            gasPrice := 1000000000000
            relayerAddr := 9
            validatorContractAddr := 8
            witnessListContract := 0
            witnesses := [] },
          none) :=
  ⟨rfl, by decide⟩

/-- C19, as amended. For every integer count and every sequence of successful
page responses whose returned count, read as an int64, lies within the bounds
of the returned items, refresh succeeds after exactly max(0, ceil(count / 10))
page reads, issued at offsets 0, 10, 20, ... with limit 10, each offset
strictly below the count; with count ≤ 0 no page is read and the installed set
is empty. -/
theorem refresh_pagination (c : Chain) (tv : transferValidatorOnIoTeX) (count : Int)
    (hcount : c.count = Except.ok (Except.ok count))
    (hpages : ∀ k : Nat, 10 * (k : Int) < count → ∃ ret,
      c.getActiveItems (10 * (k : Int)) 10 = Except.ok (Except.ok ret) ∧
        0 ≤ Int64 ret.Count ∧ Int64 ret.Count ≤ (ret.Items.length : Int)) :
    (refresh c tv).out = Outcome.returned none ∧
      (refresh c tv).trace =
        Event.readCount :: (List.range (max 0 ⌈(count : ℚ) / 10⌉).toNat).map
          (fun k : Nat => Event.readActiveItems (10 * (k : Int)) 10) ∧
      (∀ k : Nat, k < (max 0 ⌈(count : ℚ) / 10⌉).toNat → 10 * (k : Int) < count) ∧
      (count ≤ 0 →
        (refresh c tv).trace = [Event.readCount] ∧ (refresh c tv).tv.witnesses = []) := by
  have hgood : ∀ k : Nat, (0 : Int) + 10 * (k : Int) < count → ∃ ret items,
      c.getActiveItems (0 + 10 * (k : Int)) 10 = Except.ok (Except.ok ret) ∧
        sliceTo ret.Items (Int64 ret.Count) = some items := by
    intro k hk
    rw [zero_add] at hk ⊢
    obtain ⟨ret, hpage, h0, hlen⟩ := hpages k hk
    exact ⟨ret, ret.Items.take (Int64 ret.Count).toNat, hpage, by simp [sliceTo, h0, hlen]⟩
  obtain ⟨witnesses, hdone⟩ := refreshPages_done_trace c count (count.toNat + 1) 0 []
    [Event.readCount] (by omega) hgood
  have hrun := refresh_of_pages_done c tv count witnesses _ hcount hdone
  rw [pageReads_eq]
  refine ⟨by rw [hrun], ?_, fun k hk => by omega, fun hle => ?_⟩
  · rw [hrun]
    simp only [sub_zero, zero_add, List.singleton_append]
  · have hexit := refreshPages_exit c count count.toNat 0 [] [Event.readCount] (by omega)
    rw [refresh_of_pages_done c tv count [] _ hcount hexit]
    exact ⟨rfl, rfl⟩

/-- Witness of C19 as amended: a count of 25 is read in three pages, at offsets
0, 10 and 20. -/
theorem refresh_pagination_witness :
    (refresh (chainPaged 25 pagesA) tvA).out = Outcome.returned none ∧
      (refresh (chainPaged 25 pagesA) tvA).trace =
        [Event.readCount, Event.readActiveItems 0 10, Event.readActiveItems 10 10,
          Event.readActiveItems 20 10] ∧
      (refresh (chainPaged 25 pagesA) tvA).trace =
        Event.readCount :: (List.range (max 0 ⌈((25 : Int) : ℚ) / 10⌉).toNat).map
          (fun k : Nat => Event.readActiveItems (10 * (k : Int)) 10) :=
  ⟨by decide, by decide,
    (refresh_pagination (chainPaged 25 pagesA) tvA 25 rfl
      (fun k _ => by
        rcases (by simp only [chainPaged, pagesA]; split_ifs <;> simp :
          (chainPaged 25 pagesA).getActiveItems (10 * (k : Int)) 10 =
              Except.ok (Except.ok ⟨10, [1, 2, 3, 4, 5, 6, 7, 8, 9, 10]⟩) ∨
            (chainPaged 25 pagesA).getActiveItems (10 * (k : Int)) 10 =
              Except.ok (Except.ok ⟨10, [11, 12, 13, 14, 15, 16, 17, 18, 19, 20]⟩) ∨
            (chainPaged 25 pagesA).getActiveItems (10 * (k : Int)) 10 =
              Except.ok (Except.ok ⟨5, [21, 22, 23, 24, 25, 0, 0, 0, 0, 0]⟩)) with h | h | h
        · exact ⟨_, h, by decide, by decide⟩
        · exact ⟨_, h, by decide, by decide⟩
        · exact ⟨_, h, by decide, by decide⟩)).2.1⟩

/-- Counterexample to C19 as stated: the count is 25 and the pages at offsets
0, 10 and 20 are read and decoded without error, to a returned count of 5 and
no items; refresh panics at the slice of the first page, after one page read
and not three. -/
theorem refresh_pagination_panics :
    (chainPaged 25 pagesShort).count = Except.ok (Except.ok 25) ∧
      (chainPaged 25 pagesShort).getActiveItems 0 10 = Except.ok (Except.ok ⟨5, []⟩) ∧
      (chainPaged 25 pagesShort).getActiveItems 10 10 = Except.ok (Except.ok ⟨5, []⟩) ∧
      (chainPaged 25 pagesShort).getActiveItems 20 10 = Except.ok (Except.ok ⟨5, []⟩) ∧
      (max 0 ⌈((25 : Int) : ℚ) / 10⌉).toNat = 3 ∧
      (refresh (chainPaged 25 pagesShort) tvA).out = Outcome.panicked ∧
      (refresh (chainPaged 25 pagesShort) tvA).trace =
        [Event.readCount, Event.readActiveItems 0 10] :=
  ⟨rfl, rfl, rfl, rfl, by rw [pageReads_eq]; decide, by decide, by decide⟩

/-- C20. When every page response has 0 ≤ returnedCount ≤ len(items) with
returnedCount below 2 ^ 63, the slice items[:returnedCount] of refresh is
within bounds for every page, refresh does not panic, and it ends by returning
an error or by installing a new set. -/
theorem refresh_slice_in_range (c : Chain) (tv : transferValidatorOnIoTeX)
    (hrange : ∀ (offset : Int) (ret : ActiveItems),
      c.getActiveItems offset 10 = Except.ok (Except.ok ret) →
      0 ≤ ret.Count ∧ ret.Count ≤ (ret.Items.length : Int) ∧ ret.Count < 2 ^ 63) :
    (∀ (offset : Int) (ret : ActiveItems),
      c.getActiveItems offset 10 = Except.ok (Except.ok ret) →
      sliceTo ret.Items (Int64 ret.Count) = some (ret.Items.take ret.Count.toNat)) ∧
    (refresh c tv).out ≠ Outcome.panicked ∧
    ((∃ e, (refresh c tv).out = Outcome.returned (some e)) ∨
      (refresh c tv).out = Outcome.returned none) := by
  have hslice : ∀ (offset : Int) (ret : ActiveItems),
      c.getActiveItems offset 10 = Except.ok (Except.ok ret) →
      sliceTo ret.Items (Int64 ret.Count) = some (ret.Items.take ret.Count.toNat) := by
    intro offset ret hpage
    obtain ⟨h0, hlen, hfit⟩ := hrange offset ret hpage
    exact sliceTo_in_range ret.Items ret.Count h0 hlen hfit
  have hnp : (refresh c tv).out ≠ Outcome.panicked := by
    intro hp
    obtain ⟨count, trace, hpages⟩ := refresh_panicked_pages c tv hp
    refine refreshPages_not_panicked c count (fun offset ret hpage => ?_) _ _ _ _ _ hpages
    rw [hslice offset ret hpage]
    simp
  refine ⟨hslice, hnp, ?_⟩
  cases hout : (refresh c tv).out with
  | returned err =>
    cases err with
    | some e => exact Or.inl ⟨e, rfl⟩
    | none => exact Or.inr rfl
  | panicked => exact absurd hout hnp
  | diverged => exact absurd hout (refresh_not_diverged c tv)

/-- Witness of C20: the 25-witness registry, whose pages return counts 10, 10
and 5 in arrays of ten. -/
theorem refresh_slice_in_range_witness :
    (refresh (chainPaged 25 pagesA) tvA).out ≠ Outcome.panicked ∧
      (refresh (chainPaged 25 pagesA) tvA).out = Outcome.returned none :=
  ⟨(refresh_slice_in_range (chainPaged 25 pagesA) tvA
      (fun offset ret hpage => by
        rcases pagesA_cases offset ret hpage with h | h | h <;> subst h <;> decide)).2.1,
    by decide⟩

end Relayer
